import Mathlib

/-!
Shallow embedding of the TUV-x C++ radiative-transfer core
(delta-Eddington solver, radiator states, grids, interpolators,
cross sections, quantum yields, spherical geometry, photolysis rates)
together with proofs checking the natural-language specification
against the code.

Machine `double`s are modelled as exact reals.  Where IEEE invalid
values can arise (the delta-Eddington solver divides quantities that
can be 0/0) the value type is `FP := Option ℝ`: `some x` is an
ordinary finite value and `none` models an invalid value (NaN;
division by zero, which IEEE maps to ±∞ or NaN, is conservatively
absorbed into `none`).  Comparisons against `none` are false, as IEEE
comparisons with NaN are.
-/

namespace Tuvx

open Classical

/-- A machine double: `some x` is a finite value, `none` an IEEE invalid value. -/
abbrev FP := Option ℝ

/-- `a + b` on doubles; any invalid operand poisons the result. -/
def fpAdd : FP → FP → FP
  | some a, some b => some (a + b)
  | _, _ => none

/-- `a - b` on doubles. -/
def fpSub : FP → FP → FP
  | some a, some b => some (a - b)
  | _, _ => none

/-- `a * b` on doubles; note `0 * NaN = NaN`, as in IEEE. -/
def fpMul : FP → FP → FP
  | some a, some b => some (a * b)
  | _, _ => none

/-- `a / b` on doubles.  Division by zero yields `none` (IEEE gives ±∞ for a
nonzero numerator and NaN for 0/0; both are absorbed into `none`). -/
noncomputable def fpDiv : FP → FP → FP
  | some a, some b => if b = 0 then none else some (a / b)
  | _, _ => none

/-- `-a` on doubles. -/
def fpNeg : FP → FP := Option.map (fun x => -x)

/-- `std::sqrt` on doubles; a negative argument yields NaN. -/
noncomputable def fpSqrt : FP → FP
  | some a => if a < 0 then none else some (Real.sqrt a)
  | none => none

/-- `std::exp` on doubles (overflow to ∞ is out of the modelled range). -/
noncomputable def fpExp : FP → FP := Option.map Real.exp

/-- `std::abs` on doubles. -/
def fpAbs : FP → FP := Option.map (fun x => |x|)

/-- `a < b` on doubles: false whenever an operand is NaN, as in IEEE. -/
def fpLt : FP → FP → Prop
  | some a, some b => a < b
  | _, _ => False

/-- `std::clamp(v, lo, hi)` on reals: `v < lo ? lo : (hi < v ? hi : v)`. -/
noncomputable def rclamp (v lo hi : ℝ) : ℝ :=
  if v < lo then lo else if hi < v then hi else v

/-- `std::clamp` on doubles: `std::clamp(NaN, lo, hi) = NaN` because both
comparisons on NaN are false. -/
noncomputable def fpClamp (v : FP) (lo hi : ℝ) : FP :=
  v.map (fun x => rclamp x lo hi)

@[simp] theorem fpAdd_some (a b : ℝ) : fpAdd (some a) (some b) = some (a + b) := rfl

@[simp] theorem fpSub_some (a b : ℝ) : fpSub (some a) (some b) = some (a - b) := rfl

@[simp] theorem fpMul_some (a b : ℝ) : fpMul (some a) (some b) = some (a * b) := rfl

@[simp] theorem fpNeg_some (a : ℝ) : fpNeg (some a) = some (-a) := rfl

@[simp] theorem fpExp_some (a : ℝ) : fpExp (some a) = some (Real.exp a) := rfl

@[simp] theorem fpAbs_some (a : ℝ) : fpAbs (some a) = some |a| := rfl

@[simp] theorem fpAdd_none_left (b : FP) : fpAdd none b = none := rfl

@[simp] theorem fpAdd_none_right (a : FP) : fpAdd a none = none := by
  cases a <;> rfl

@[simp] theorem fpMul_none_left (b : FP) : fpMul none b = none := rfl

@[simp] theorem fpMul_none_right (a : FP) : fpMul a none = none := by
  cases a <;> rfl

@[simp] theorem fpSub_none_left (b : FP) : fpSub none b = none := rfl

@[simp] theorem fpSub_none_right (a : FP) : fpSub a none = none := by
  cases a <;> rfl

@[simp] theorem fpDiv_none_left (b : FP) : fpDiv none b = none := rfl

@[simp] theorem fpDiv_none_right (a : FP) : fpDiv a none = none := by
  cases a <;> rfl

theorem fpDiv_some_of_ne (a b : ℝ) (hb : b ≠ 0) :
    fpDiv (some a) (some b) = some (a / b) := by
  simp [fpDiv, hb]

theorem fpDiv_some_zero (a : ℝ) : fpDiv (some a) (some 0) = none := by
  simp [fpDiv]

@[simp] theorem fpClamp_none (lo hi : ℝ) : fpClamp none lo hi = none := rfl

@[simp] theorem fpClamp_some (x lo hi : ℝ) :
    fpClamp (some x) lo hi = some (rclamp x lo hi) := rfl

@[simp] theorem fpSqrt_none : fpSqrt none = none := rfl

theorem fpSqrt_some_of_nonneg (a : ℝ) (ha : 0 ≤ a) :
    fpSqrt (some a) = some (Real.sqrt a) := by
  simp [fpSqrt, not_lt.mpr ha]

@[simp] theorem fpLt_some_some (a b : ℝ) : fpLt (some a) (some b) ↔ a < b := Iff.rfl

@[simp] theorem fpLt_none_left (b : FP) : ¬ fpLt none b := by
  cases b <;> simp [fpLt]

@[simp] theorem fpLt_none_right (a : FP) : ¬ fpLt a none := by
  cases a <;> simp [fpLt]

theorem rclamp_mem (v lo hi : ℝ) (h : lo ≤ hi) :
    lo ≤ rclamp v lo hi ∧ rclamp v lo hi ≤ hi := by
  unfold rclamp
  split
  · exact ⟨le_refl _, h⟩
  · split
    · exact ⟨h, le_refl _⟩
    · constructor <;> [exact not_lt.mp (by assumption); exact not_lt.mp (by assumption)]

theorem rclamp_of_mem (v lo hi : ℝ) (h1 : lo ≤ v) (h2 : v ≤ hi) :
    rclamp v lo hi = v := by
  unfold rclamp
  rw [if_neg (not_lt.mpr h1), if_neg (not_lt.mpr h2)]

/-- A double that is a finite nonnegative value. -/
def fpNN (x : FP) : Prop := ∃ v : ℝ, x = some v ∧ 0 ≤ v

theorem fpNN_some {v : ℝ} (h : 0 ≤ v) : fpNN (some v) := ⟨v, rfl, h⟩

theorem fpNN_zero : fpNN (some 0) := fpNN_some le_rfl

theorem fpNN_add {a b : FP} (ha : fpNN a) (hb : fpNN b) : fpNN (fpAdd a b) := by
  obtain ⟨x, rfl, hx⟩ := ha
  obtain ⟨y, rfl, hy⟩ := hb
  exact ⟨x + y, rfl, add_nonneg hx hy⟩

theorem fpNN_mul {a b : FP} (ha : fpNN a) (hb : fpNN b) : fpNN (fpMul a b) := by
  obtain ⟨x, rfl, hx⟩ := ha
  obtain ⟨y, rfl, hy⟩ := hb
  exact ⟨x * y, rfl, mul_nonneg hx hy⟩

theorem fpNN_div {a b : FP} (ha : fpNN a) {y : ℝ} (hb : b = some y) (hy : 0 < y) :
    fpNN (fpDiv a b) := by
  obtain ⟨x, rfl, hx⟩ := ha
  subst hb
  rw [fpDiv_some_of_ne _ _ (ne_of_gt hy)]
  exact ⟨x / y, rfl, div_nonneg hx hy.le⟩

/-! ### RadiatorState (`src/include/tuvx/radiator/radiator_state.hpp`) -/

/-- Per-species optical properties, `[n_layers][n_wavelengths]` arrays of
optical depth τ, single-scattering albedo ω and asymmetry factor g. -/
structure RadiatorState where
  optical_depth : List (List ℝ)
  single_scattering_albedo : List (List ℝ)
  asymmetry_factor : List (List ℝ)

/-- `RadiatorState::Empty`: true when `optical_depth` is empty. -/
def RadiatorState.Empty (s : RadiatorState) : Bool := s.optical_depth.isEmpty

/-- `RadiatorState::NumberOfLayers`. -/
def RadiatorState.NumberOfLayers (s : RadiatorState) : ℕ := s.optical_depth.length

/-- `RadiatorState::NumberOfWavelengths`: the length of row 0 of
`optical_depth`, or 0 when that array is empty. -/
def RadiatorState.NumberOfWavelengths (s : RadiatorState) : ℕ :=
  match s.optical_depth with
  | [] => 0
  | r :: _ => r.length

/-- `a[i][j]` on a `[n][m]` array of doubles (in range under the dimension
checks the code performs before indexing). -/
def idx2 (a : List (List ℝ)) (i j : ℕ) : ℝ := (a.getD i []).getD j 0

/-- The per-cell mixing rule in the accumulation loop of
`RadiatorState::Accumulate` (lines 113-144): τ adds; ω is the τ-weighted
average (0 when τ' is not positive); g is the scattering-optical-depth
weighted average (0 when that denominator is not positive). -/
noncomputable def accumulateCell (t1 o1 g1 t2 o2 g2 : ℝ) : ℝ × ℝ × ℝ :=
  let tau_total := t1 + t2
  let omega_total := if 0 < tau_total then (t1 * o1 + t2 * o2) / tau_total else 0
  let scatter_tau_1 := t1 * o1
  let scatter_tau_2 := t2 * o2
  let scatter_tau_total := scatter_tau_1 + scatter_tau_2
  let g_total :=
    if 0 < scatter_tau_total then (scatter_tau_1 * g1 + scatter_tau_2 * g2) / scatter_tau_total
    else 0
  (tau_total, omega_total, g_total)

/-- `RadiatorState::Accumulate`.  The C++ member mutates the receiver and
throws `std::runtime_error` on mismatched dimensions; here the updated
receiver is returned in `Except`, with `error` carrying the exception
message (the receiver is left unchanged by a throw). -/
noncomputable def RadiatorState.Accumulate (s other : RadiatorState) :
    Except String RadiatorState :=
  if other.Empty then .ok s
  else if s.Empty then .ok other
  else
    let n_layers := s.NumberOfLayers
    let n_wavelengths := s.NumberOfWavelengths
    if other.NumberOfLayers ≠ n_layers ∨ other.NumberOfWavelengths ≠ n_wavelengths then
      .error "Cannot accumulate RadiatorState with different dimensions"
    else
      .ok
        { optical_depth :=
            (List.range n_layers).map fun i => (List.range n_wavelengths).map fun j =>
              (accumulateCell (idx2 s.optical_depth i j) (idx2 s.single_scattering_albedo i j)
                (idx2 s.asymmetry_factor i j) (idx2 other.optical_depth i j)
                (idx2 other.single_scattering_albedo i j) (idx2 other.asymmetry_factor i j)).1
          single_scattering_albedo :=
            (List.range n_layers).map fun i => (List.range n_wavelengths).map fun j =>
              (accumulateCell (idx2 s.optical_depth i j) (idx2 s.single_scattering_albedo i j)
                (idx2 s.asymmetry_factor i j) (idx2 other.optical_depth i j)
                (idx2 other.single_scattering_albedo i j) (idx2 other.asymmetry_factor i j)).2.1
          asymmetry_factor :=
            (List.range n_layers).map fun i => (List.range n_wavelengths).map fun j =>
              (accumulateCell (idx2 s.optical_depth i j) (idx2 s.single_scattering_albedo i j)
                (idx2 s.asymmetry_factor i j) (idx2 other.optical_depth i j)
                (idx2 other.single_scattering_albedo i j) (idx2 other.asymmetry_factor i j)).2.2 }

/-- A `[n][m]` array shape predicate. -/
def Shaped2 {α : Type} (a : List (List α)) (n m : ℕ) : Prop :=
  a.length = n ∧ ∀ r ∈ a, r.length = m

/-- All three arrays of a `RadiatorState` have shape `[n][m]`. -/
def RadiatorState.Shaped (s : RadiatorState) (n m : ℕ) : Prop :=
  Shaped2 s.optical_depth n m ∧ Shaped2 s.single_scattering_albedo n m ∧
    Shaped2 s.asymmetry_factor n m

theorem Shaped2_range_map (n m : ℕ) (f : ℕ → ℕ → ℝ) :
    Shaped2 ((List.range n).map fun i => (List.range m).map fun j => f i j) n m := by
  constructor
  · simp
  · intro r hr
    simp only [List.mem_map, List.mem_range] at hr
    obtain ⟨i, _, rfl⟩ := hr
    simp

theorem RadiatorState.shaped_empty_iff {s : RadiatorState} {n m : ℕ}
    (hs : s.Shaped n m) : s.Empty = true ↔ n = 0 := by
  obtain ⟨⟨hlen, _⟩, _⟩ := hs
  subst hlen
  simp [RadiatorState.Empty, List.isEmpty_iff_length_eq_zero]

theorem RadiatorState.numberOfLayers_of_shaped {s : RadiatorState} {n m : ℕ}
    (hs : s.Shaped n m) : s.NumberOfLayers = n := hs.1.1

theorem RadiatorState.numberOfWavelengths_of_shaped {s : RadiatorState} {n m : ℕ}
    (hs : s.Shaped n m) (hn : 0 < n) : s.NumberOfWavelengths = m := by
  obtain ⟨⟨hlen, hrow⟩, _⟩ := hs
  unfold RadiatorState.NumberOfWavelengths
  match h : s.optical_depth with
  | [] => rw [h] at hlen; simp at hlen; omega
  | r :: rest => exact hrow r (by rw [h]; exact List.mem_cons_self r rest)

theorem idx2_range_map (n m : ℕ) (f : ℕ → ℕ → ℝ) {i j : ℕ} (hi : i < n) (hj : j < m) :
    idx2 ((List.range n).map fun i => (List.range m).map fun j => f i j) i j = f i j := by
  unfold idx2
  have h1 : ((List.range n).map fun i => (List.range m).map fun j => f i j).getD i [] =
      (List.range m).map fun j => f i j := by
    rw [List.getD_eq_getElem _ _ (by simpa using hi), List.getElem_map, List.getElem_range]
  rw [h1, List.getD_eq_getElem _ _ (by simpa using hj), List.getElem_map, List.getElem_range]

/-- C5: `RadiatorState::Accumulate` — cell-wise mixing formulas for matching
non-empty shapes; adopting the other state when the receiver is empty;
no-op when the other state is empty; dimension-mismatch error (receiver
unchanged) for differing non-empty shapes. -/
theorem radiatorState_accumulate_spec (A B : RadiatorState) :
    (B.Empty = true → A.Accumulate B = .ok A) ∧
    (B.Empty = false → A.Empty = true → A.Accumulate B = .ok B) ∧
    (∀ n m n' m' : ℕ, A.Shaped n m → B.Shaped n' m' → 0 < n → 0 < n' →
      (n' ≠ n ∨ m' ≠ m) →
      A.Accumulate B = .error "Cannot accumulate RadiatorState with different dimensions") ∧
    (∀ n m : ℕ, A.Shaped n m → B.Shaped n m → 0 < n →
      ∃ C, A.Accumulate B = .ok C ∧ C.Shaped n m ∧
        ∀ i < n, ∀ j < m,
          idx2 C.optical_depth i j =
            idx2 A.optical_depth i j + idx2 B.optical_depth i j ∧
          idx2 C.single_scattering_albedo i j =
            (if 0 < idx2 A.optical_depth i j + idx2 B.optical_depth i j then
              (idx2 A.optical_depth i j * idx2 A.single_scattering_albedo i j +
                idx2 B.optical_depth i j * idx2 B.single_scattering_albedo i j) /
                (idx2 A.optical_depth i j + idx2 B.optical_depth i j)
             else 0) ∧
          idx2 C.asymmetry_factor i j =
            (if 0 < idx2 A.optical_depth i j * idx2 A.single_scattering_albedo i j +
                idx2 B.optical_depth i j * idx2 B.single_scattering_albedo i j then
              (idx2 A.optical_depth i j * idx2 A.single_scattering_albedo i j *
                  idx2 A.asymmetry_factor i j +
                idx2 B.optical_depth i j * idx2 B.single_scattering_albedo i j *
                  idx2 B.asymmetry_factor i j) /
                (idx2 A.optical_depth i j * idx2 A.single_scattering_albedo i j +
                  idx2 B.optical_depth i j * idx2 B.single_scattering_albedo i j)
             else 0)) := by
  refine ⟨?_, ?_, ?_, ?_⟩
  · intro hB
    unfold RadiatorState.Accumulate
    rw [if_pos hB]
  · intro hB hA
    unfold RadiatorState.Accumulate
    rw [if_neg (by simp [hB]), if_pos hA]
  · intro n m n' m' hA hB hn hn' hne
    unfold RadiatorState.Accumulate
    rw [if_neg (by simp [(B.shaped_empty_iff hB).not.mpr (by omega)]),
      if_neg (by simp [(A.shaped_empty_iff hA).not.mpr (by omega)])]
    rw [if_pos]
    rw [A.numberOfLayers_of_shaped hA, B.numberOfLayers_of_shaped hB,
      A.numberOfWavelengths_of_shaped hA hn, B.numberOfWavelengths_of_shaped hB hn']
    exact hne
  · intro n m hA hB hn
    unfold RadiatorState.Accumulate
    rw [if_neg (by simp [(B.shaped_empty_iff hB).not.mpr (by omega)]),
      if_neg (by simp [(A.shaped_empty_iff hA).not.mpr (by omega)])]
    rw [if_neg]
    · refine ⟨_, rfl, ?_, ?_⟩
      · rw [A.numberOfLayers_of_shaped hA, A.numberOfWavelengths_of_shaped hA hn]
        exact ⟨Shaped2_range_map n m _, Shaped2_range_map n m _, Shaped2_range_map n m _⟩
      · intro i hi j hj
        rw [A.numberOfLayers_of_shaped hA, A.numberOfWavelengths_of_shaped hA hn]
        refine ⟨?_, ?_, ?_⟩ <;>
          simp only [idx2_range_map n m _ hi hj, accumulateCell]
    · rw [A.numberOfLayers_of_shaped hA, B.numberOfLayers_of_shaped hB,
        A.numberOfWavelengths_of_shaped hA hn, B.numberOfWavelengths_of_shaped hB hn]
      simp

/-- Witness for C5: two concrete 1×1 states accumulated through the theorem. -/
theorem radiatorState_accumulate_spec_witness :
    ∃ C, RadiatorState.Accumulate ⟨[[2]], [[1/2]], [[0]]⟩ ⟨[[2]], [[1/2]], [[1]]⟩ = .ok C ∧
      C.Shaped 1 1 ∧
      ∀ i < 1, ∀ j < 1,
        idx2 C.optical_depth i j =
          idx2 (RadiatorState.mk [[2]] [[1/2]] [[0]]).optical_depth i j +
            idx2 (RadiatorState.mk [[2]] [[1/2]] [[1]]).optical_depth i j ∧
        idx2 C.single_scattering_albedo i j =
          (if 0 < idx2 (RadiatorState.mk [[2]] [[1/2]] [[0]]).optical_depth i j +
              idx2 (RadiatorState.mk [[2]] [[1/2]] [[1]]).optical_depth i j then
            (idx2 (RadiatorState.mk [[2]] [[1/2]] [[0]]).optical_depth i j *
              idx2 (RadiatorState.mk [[2]] [[1/2]] [[0]]).single_scattering_albedo i j +
              idx2 (RadiatorState.mk [[2]] [[1/2]] [[1]]).optical_depth i j *
                idx2 (RadiatorState.mk [[2]] [[1/2]] [[1]]).single_scattering_albedo i j) /
              (idx2 (RadiatorState.mk [[2]] [[1/2]] [[0]]).optical_depth i j +
                idx2 (RadiatorState.mk [[2]] [[1/2]] [[1]]).optical_depth i j)
           else 0) ∧
        idx2 C.asymmetry_factor i j =
          (if 0 < idx2 (RadiatorState.mk [[2]] [[1/2]] [[0]]).optical_depth i j *
              idx2 (RadiatorState.mk [[2]] [[1/2]] [[0]]).single_scattering_albedo i j +
              idx2 (RadiatorState.mk [[2]] [[1/2]] [[1]]).optical_depth i j *
                idx2 (RadiatorState.mk [[2]] [[1/2]] [[1]]).single_scattering_albedo i j then
            (idx2 (RadiatorState.mk [[2]] [[1/2]] [[0]]).optical_depth i j *
              idx2 (RadiatorState.mk [[2]] [[1/2]] [[0]]).single_scattering_albedo i j *
              idx2 (RadiatorState.mk [[2]] [[1/2]] [[0]]).asymmetry_factor i j +
              idx2 (RadiatorState.mk [[2]] [[1/2]] [[1]]).optical_depth i j *
                idx2 (RadiatorState.mk [[2]] [[1/2]] [[1]]).single_scattering_albedo i j *
                idx2 (RadiatorState.mk [[2]] [[1/2]] [[1]]).asymmetry_factor i j) /
              (idx2 (RadiatorState.mk [[2]] [[1/2]] [[0]]).optical_depth i j *
                idx2 (RadiatorState.mk [[2]] [[1/2]] [[0]]).single_scattering_albedo i j +
                idx2 (RadiatorState.mk [[2]] [[1/2]] [[1]]).optical_depth i j *
                  idx2 (RadiatorState.mk [[2]] [[1/2]] [[1]]).single_scattering_albedo i j)
           else 0) :=
  (radiatorState_accumulate_spec ⟨[[2]], [[1/2]], [[0]]⟩ ⟨[[2]], [[1/2]], [[1]]⟩).2.2.2 1 1
    (by refine ⟨⟨rfl, ?_⟩, ⟨rfl, ?_⟩, ⟨rfl, ?_⟩⟩ <;> simp)
    (by refine ⟨⟨rfl, ?_⟩, ⟨rfl, ?_⟩, ⟨rfl, ?_⟩⟩ <;> simp)
    one_pos

/-! ### Grid (`src/include/tuvx/grid/grid.hpp`) -/

/-- A 1-D grid: `n_cells` cells, `n_cells + 1` edge values. -/
structure Grid where
  n_cells : ℕ
  edges : List ℝ

/-- Position of the first element satisfying `p`, or the length of the list
when none does.  On sorted input with `p := (v < ·)` this is exactly where
`std::upper_bound` points (and with `p := (· < v)` where
`std::upper_bound` with `std::greater` points; with `p := (v ≤ ·)`,
`std::lower_bound`). -/
noncomputable def firstIdx (p : ℝ → Prop) : List ℝ → ℕ
  | [] => 0
  | x :: xs => if p x then 0 else firstIdx p xs + 1

theorem firstIdx_le_length (p : ℝ → Prop) (l : List ℝ) : firstIdx p l ≤ l.length := by
  induction l with
  | nil => simp [firstIdx]
  | cons x xs ih =>
    by_cases h : p x
    · simp [firstIdx, h]
    · simp only [firstIdx, if_neg h, List.length_cons]
      omega

theorem not_pred_of_lt_firstIdx (p : ℝ → Prop) (l : List ℝ) {k : ℕ}
    (hk : k < firstIdx p l) : ¬ p (l.getD k 0) := by
  induction l generalizing k with
  | nil => simp [firstIdx] at hk
  | cons x xs ih =>
    by_cases h : p x
    · simp [firstIdx, h] at hk
    · simp only [firstIdx, if_neg h] at hk
      match k with
      | 0 => simpa using h
      | k + 1 =>
        rw [List.getD_cons_succ]
        exact ih (by omega)

theorem pred_firstIdx (p : ℝ → Prop) (l : List ℝ) (h : firstIdx p l < l.length) :
    p (l.getD (firstIdx p l) 0) := by
  induction l with
  | nil => simp [firstIdx] at h
  | cons x xs ih =>
    by_cases hx : p x
    · simp [firstIdx, hx]
    · simp only [firstIdx, if_neg hx, List.length_cons] at h ⊢
      rw [List.getD_cons_succ]
      exact ih (by omega)

theorem firstIdx_le_of_pred (p : ℝ → Prop) (l : List ℝ) {j : ℕ}
    (_hj : j < l.length) (hp : p (l.getD j 0)) : firstIdx p l ≤ j := by
  by_contra hcon
  exact not_pred_of_lt_firstIdx p l (by omega) hp

theorem firstIdx_eq_length (p : ℝ → Prop) (l : List ℝ)
    (h : ∀ j < l.length, ¬ p (l.getD j 0)) : firstIdx p l = l.length := by
  rcases Nat.lt_or_ge (firstIdx p l) l.length with hlt | hge
  · exact absurd (pred_firstIdx p l hlt) (h _ hlt)
  · exact le_antisymm (firstIdx_le_length p l) hge

/-- `Grid::FindCell`: locate the cell whose edges bracket `value`, using
`std::upper_bound` (reversed comparison for descending grids), with the
result index clamped to the last cell at the upper boundary.  Out-of-range
values give `none`. -/
noncomputable def Grid.FindCell (g : Grid) (v : ℝ) : Option ℕ :=
  if g.n_cells = 0 then none
  else if g.edges.headD 0 ≤ g.edges.getLastD 0 then
    -- ascending grid
    if v < g.edges.headD 0 ∨ g.edges.getLastD 0 < v then none
    else
      let k := firstIdx (fun e => v < e) g.edges
      if k = 0 then some 0
      else
        let idx := k - 1
        some (if g.n_cells ≤ idx then g.n_cells - 1 else idx)
  else
    -- descending grid
    if g.edges.headD 0 < v ∨ v < g.edges.getLastD 0 then none
    else
      let k := firstIdx (fun e => e < v) g.edges
      if k = 0 then some 0
      else
        let idx := k - 1
        some (if g.n_cells ≤ idx then g.n_cells - 1 else idx)

theorem headD_eq_getD (l : List ℝ) : l.headD 0 = l.getD 0 0 := by
  cases l <;> rfl

theorem getLastD_eq_getD (l : List ℝ) (n : ℕ) (h : l.length = n + 1) :
    l.getLastD 0 = l.getD n 0 := by
  induction l generalizing n with
  | nil => simp at h
  | cons x xs ih =>
    match n, xs with
    | 0, [] => rfl
    | n + 1, y :: ys =>
      rw [List.getD_cons_succ, List.getLastD_cons]
      exact ih n (by simpa using h)

theorem sorted_getD_lt {l : List ℝ} (hs : List.Sorted (· < ·) l) {i j : ℕ}
    (hij : i < j) (hj : j < l.length) : l.getD i 0 < l.getD j 0 := by
  rw [List.getD_eq_getElem _ _ (by omega), List.getD_eq_getElem _ _ hj]
  exact List.pairwise_iff_getElem.mp hs i j (by omega) hj hij

theorem sorted_getD_gt {l : List ℝ} (hs : List.Sorted (· > ·) l) {i j : ℕ}
    (hij : i < j) (hj : j < l.length) : l.getD j 0 < l.getD i 0 := by
  rw [List.getD_eq_getElem _ _ hj, List.getD_eq_getElem _ _ (show i < l.length by omega)]
  exact List.pairwise_iff_getElem.mp hs i j (by omega) hj hij

/-- C9: `Grid::FindCell` returns the bracketing cell as a half-open interval
(`[eᵢ, eᵢ₊₁)` ascending, `(eᵢ₊₁, eᵢ]` descending), `none` outside the closed
range of the edges, the last cell at the upper boundary edge, and the
upper (later-indexed) of the two touching cells at an internal edge. -/
theorem grid_findCell_spec (g : Grid) (v : ℝ)
    (hlen : g.edges.length = g.n_cells + 1) (hn : 0 < g.n_cells) :
    (List.Sorted (· < ·) g.edges →
      ((v < g.edges.getD 0 0 ∨ g.edges.getD g.n_cells 0 < v) → g.FindCell v = none) ∧
      (g.edges.getD 0 0 ≤ v → v < g.edges.getD g.n_cells 0 →
        ∃ i, g.FindCell v = some i ∧ i < g.n_cells ∧
          g.edges.getD i 0 ≤ v ∧ v < g.edges.getD (i + 1) 0) ∧
      (v = g.edges.getD g.n_cells 0 → g.FindCell v = some (g.n_cells - 1)) ∧
      (∀ k, 0 < k → k < g.n_cells → v = g.edges.getD k 0 → g.FindCell v = some k)) ∧
    (List.Sorted (· > ·) g.edges →
      ((g.edges.getD 0 0 < v ∨ v < g.edges.getD g.n_cells 0) → g.FindCell v = none) ∧
      (g.edges.getD g.n_cells 0 < v → v ≤ g.edges.getD 0 0 →
        ∃ i, g.FindCell v = some i ∧ i < g.n_cells ∧
          g.edges.getD (i + 1) 0 < v ∧ v ≤ g.edges.getD i 0) ∧
      (v = g.edges.getD g.n_cells 0 → g.FindCell v = some (g.n_cells - 1)) ∧
      (∀ k, 0 < k → k < g.n_cells → v = g.edges.getD k 0 → g.FindCell v = some k)) := by
  have hhead : g.edges.headD 0 = g.edges.getD 0 0 := headD_eq_getD _
  have hlast : g.edges.getLastD 0 = g.edges.getD g.n_cells 0 := getLastD_eq_getD _ _ hlen
  constructor
  · -- ascending grid
    intro hs
    have hends : g.edges.getD 0 0 < g.edges.getD g.n_cells 0 :=
      sorted_getD_lt hs hn (by omega)
    have hasc : g.edges.headD 0 ≤ g.edges.getLastD 0 := by rw [hhead, hlast]; exact hends.le
    have hout : ∀ hcond : v < g.edges.getD 0 0 ∨ g.edges.getD g.n_cells 0 < v,
        g.FindCell v = none := by
      intro hcond
      unfold Grid.FindCell
      rw [if_neg (by omega), if_pos hasc, if_pos (by rw [hhead, hlast]; exact hcond)]
    have hmain : g.edges.getD 0 0 ≤ v → v < g.edges.getD g.n_cells 0 →
        ∃ i, g.FindCell v = some i ∧ i < g.n_cells ∧
          g.edges.getD i 0 ≤ v ∧ v < g.edges.getD (i + 1) 0 := by
      intro hlo hhi
      have hk1 : 1 ≤ firstIdx (fun e => v < e) g.edges := by
        by_contra hcon
        have h0 : firstIdx (fun e => v < e) g.edges = 0 := by omega
        have := pred_firstIdx (fun e => v < e) g.edges (by rw [h0]; omega)
        rw [h0] at this
        exact absurd this (not_lt.mpr hlo)
      have hkn : firstIdx (fun e => v < e) g.edges ≤ g.n_cells :=
        firstIdx_le_of_pred _ _ (by omega) hhi
      have hklt : firstIdx (fun e => v < e) g.edges < g.edges.length := by omega
      refine ⟨firstIdx (fun e => v < e) g.edges - 1, ?_, by omega, ?_, ?_⟩
      · unfold Grid.FindCell
        rw [if_neg (by omega), if_pos hasc,
          if_neg (by rw [hhead, hlast]; push_neg; exact ⟨hlo, hhi.le⟩)]
        simp only [if_neg (by omega : ¬ firstIdx (fun e => v < e) g.edges = 0)]
        rw [if_neg (by omega)]
      · exact not_lt.mp (not_pred_of_lt_firstIdx (fun e => v < e) g.edges (by omega))
      · have := pred_firstIdx (fun e => v < e) g.edges hklt
        have harith : firstIdx (fun e => v < e) g.edges - 1 + 1 =
            firstIdx (fun e => v < e) g.edges := by omega
        rw [harith]
        exact this
    refine ⟨hout, hmain, ?_, ?_⟩
    · intro hv
      have hfull : firstIdx (fun e => v < e) g.edges = g.edges.length := by
        apply firstIdx_eq_length
        intro j hj
        have hje : g.edges.getD j 0 ≤ g.edges.getD g.n_cells 0 := by
          rcases Nat.lt_or_ge j g.n_cells with h | h
          · exact (sorted_getD_lt hs h (by omega)).le
          · have : j = g.n_cells := by omega
            rw [this]
        rw [hv]
        exact not_lt.mpr hje
      unfold Grid.FindCell
      rw [if_neg (by omega), if_pos hasc,
        if_neg (by
          rw [hhead, hlast, hv]
          push_neg
          exact ⟨hends.le, le_refl _⟩)]
      simp only [hfull, hlen]
      rw [if_neg (by omega), if_pos (by omega)]
    · intro k hk0 hkn hv
      obtain ⟨i, hfind, hilt, hlo, hhi⟩ :=
        hmain (by rw [hv]; exact (sorted_getD_lt hs hk0 (by omega)).le)
          (by rw [hv]; exact sorted_getD_lt hs hkn (by omega))
      have hik : i = k := by
        by_contra hne
        rcases Nat.lt_or_ge i k with h | h
        · have : g.edges.getD (i + 1) 0 ≤ g.edges.getD k 0 := by
            rcases Nat.lt_or_ge (i + 1) k with h2 | h2
            · exact (sorted_getD_lt hs h2 (by omega)).le
            · have : i + 1 = k := by omega
              rw [this]
          rw [hv] at hhi
          exact absurd hhi (not_lt.mpr this)
        · have hki : k < i := by omega
          have : g.edges.getD k 0 < g.edges.getD i 0 := sorted_getD_lt hs hki (by omega)
          rw [hv] at hlo
          exact absurd hlo (not_le.mpr this)
      rw [hik] at hfind
      exact hfind
  · -- descending grid
    intro hs
    have hends : g.edges.getD g.n_cells 0 < g.edges.getD 0 0 :=
      sorted_getD_gt hs hn (by omega)
    have hdesc : ¬ g.edges.headD 0 ≤ g.edges.getLastD 0 := by
      rw [hhead, hlast]; exact not_le.mpr hends
    have hout : ∀ hcond : g.edges.getD 0 0 < v ∨ v < g.edges.getD g.n_cells 0,
        g.FindCell v = none := by
      intro hcond
      unfold Grid.FindCell
      rw [if_neg (by omega), if_neg hdesc, if_pos (by rw [hhead, hlast]; exact hcond)]
    have hmain : g.edges.getD g.n_cells 0 < v → v ≤ g.edges.getD 0 0 →
        ∃ i, g.FindCell v = some i ∧ i < g.n_cells ∧
          g.edges.getD (i + 1) 0 < v ∧ v ≤ g.edges.getD i 0 := by
      intro hlo hhi
      have hk1 : 1 ≤ firstIdx (fun e => e < v) g.edges := by
        by_contra hcon
        have h0 : firstIdx (fun e => e < v) g.edges = 0 := by omega
        have := pred_firstIdx (fun e => e < v) g.edges (by rw [h0]; omega)
        rw [h0] at this
        exact absurd this (not_lt.mpr hhi)
      have hkn : firstIdx (fun e => e < v) g.edges ≤ g.n_cells :=
        firstIdx_le_of_pred _ _ (by omega) hlo
      have hklt : firstIdx (fun e => e < v) g.edges < g.edges.length := by omega
      refine ⟨firstIdx (fun e => e < v) g.edges - 1, ?_, by omega, ?_, ?_⟩
      · unfold Grid.FindCell
        rw [if_neg (by omega), if_neg hdesc,
          if_neg (by rw [hhead, hlast]; push_neg; exact ⟨hhi, hlo.le⟩)]
        simp only [if_neg (by omega : ¬ firstIdx (fun e => e < v) g.edges = 0)]
        rw [if_neg (by omega)]
      · have := pred_firstIdx (fun e => e < v) g.edges hklt
        have harith : firstIdx (fun e => e < v) g.edges - 1 + 1 =
            firstIdx (fun e => e < v) g.edges := by omega
        rw [harith]
        exact this
      · exact not_lt.mp (not_pred_of_lt_firstIdx (fun e => e < v) g.edges (by omega))
    refine ⟨hout, hmain, ?_, ?_⟩
    · intro hv
      have hfull : firstIdx (fun e => e < v) g.edges = g.edges.length := by
        apply firstIdx_eq_length
        intro j hj
        have hje : g.edges.getD g.n_cells 0 ≤ g.edges.getD j 0 := by
          rcases Nat.lt_or_ge j g.n_cells with h | h
          · exact (sorted_getD_gt hs h (by omega)).le
          · have : j = g.n_cells := by omega
            rw [this]
        rw [hv]
        exact not_lt.mpr hje
      unfold Grid.FindCell
      rw [if_neg (by omega), if_neg hdesc,
        if_neg (by
          rw [hhead, hlast, hv]
          push_neg
          exact ⟨hends.le, le_refl _⟩)]
      simp only [hfull, hlen]
      rw [if_neg (by omega), if_pos (by omega)]
    · intro k hk0 hkn hv
      obtain ⟨i, hfind, hilt, hlo, hhi⟩ :=
        hmain (by rw [hv]; exact sorted_getD_gt hs hkn (by omega))
          (by rw [hv]; exact (sorted_getD_gt hs hk0 (by omega)).le)
      have hik : i = k := by
        by_contra hne
        rcases Nat.lt_or_ge i k with h | h
        · have : g.edges.getD k 0 ≤ g.edges.getD (i + 1) 0 := by
            rcases Nat.lt_or_ge (i + 1) k with h2 | h2
            · exact (sorted_getD_gt hs h2 (by omega)).le
            · have : i + 1 = k := by omega
              rw [this]
          rw [hv] at hlo
          exact absurd hlo (not_lt.mpr this)
        · have hki : k < i := by omega
          have : g.edges.getD i 0 < g.edges.getD k 0 := sorted_getD_gt hs hki (by omega)
          rw [hv] at hhi
          exact absurd hhi (not_le.mpr this)
      rw [hik] at hfind
      exact hfind

/-- Witness for C9: a concrete ascending 2-cell grid, with `FindCell` applied
to the internal edge returning the upper cell. -/
theorem grid_findCell_spec_witness :
    Grid.FindCell ⟨2, [0, 1, 3]⟩ 1 = some 1 :=
  ((grid_findCell_spec ⟨2, [0, 1, 3]⟩ 1 rfl (by norm_num)).1
      (by norm_num [List.sorted_cons])).2.2.2 1 (by norm_num) (by norm_num)
    (by norm_num [List.getD])

/-! ### ConservingInterpolator
(`src/include/tuvx/interpolation/conserving_interpolator.hpp`) -/

theorem list_range_map_getD (n : ℕ) (f : ℕ → ℝ) {i : ℕ} (hi : i < n) :
    ((List.range n).map f).getD i 0 = f i := by
  rw [List.getD_eq_getElem _ _ (by simpa using hi), List.getElem_map, List.getElem_range]

theorem list_range_map_sum (n : ℕ) (f : ℕ → ℝ) :
    ((List.range n).map f).sum = ∑ j ∈ Finset.range n, f j := by
  induction n with
  | zero => simp
  | succ n ih =>
    rw [List.range_succ, List.map_append, List.sum_append, Finset.sum_range_succ, ih]
    simp

theorem adjacent_mono (l : List ℝ)
    (hsort : ∀ i, i + 1 < l.length → l.getD i 0 ≤ l.getD (i + 1) 0) {i j : ℕ}
    (hij : i ≤ j) (hj : j < l.length) : l.getD i 0 ≤ l.getD j 0 := by
  induction j with
  | zero =>
    have : i = 0 := by omega
    rw [this]
  | succ j ih =>
    rcases Nat.lt_or_ge i (j + 1) with h | h
    · exact le_trans (ih (by omega) (by omega)) (hsort j hj)
    · have : i = j + 1 := by omega
      rw [this]

/-- The contribution of one source bin to the accumulated area over the
target interval `[lo, hi]` (inner loop of
`ConservingInterpolator::Interpolate`): value times overlap width when the
overlap is positive, else nothing. -/
noncomputable def overlapContribution (lo hi source_lo source_hi value : ℝ) : ℝ :=
  let overlap_lo := max lo source_lo
  let overlap_hi := min hi source_hi
  let overlap_width := overlap_hi - overlap_lo
  if 0 < overlap_width then value * overlap_width else 0

/-- `accumulated_area` for one target bin. -/
noncomputable def accumulatedArea (source_edges source_values : List ℝ) (lo hi : ℝ) : ℝ :=
  ((List.range source_values.length).map fun j =>
    overlapContribution lo hi (source_edges.getD j 0) (source_edges.getD (j + 1) 0)
      (source_values.getD j 0)).sum

/-- `ConservingInterpolator::Interpolate`: area-conserving bin-to-bin
resampling; degenerate inputs give an empty or all-zero result. -/
noncomputable def ConservingInterpolate
    (target_edges source_edges source_values : List ℝ) : List ℝ :=
  if target_edges.length < 2 then []
  else
    let n_target := target_edges.length - 1
    if source_edges.length < 2 ∨ source_values.length ≠ source_edges.length - 1 then
      List.replicate n_target 0
    else
      (List.range n_target).map fun i =>
        let target_lo := target_edges.getD i 0
        let target_hi := target_edges.getD (i + 1) 0
        let target_width := target_hi - target_lo
        if target_width ≤ 0 then 0
        else accumulatedArea source_edges source_values target_lo target_hi / target_width

theorem overlapContribution_eq (lo hi slo shi v : ℝ) :
    overlapContribution lo hi slo shi v = v * max 0 (min hi shi - max lo slo) := by
  unfold overlapContribution
  by_cases h : 0 < min hi shi - max lo slo
  · rw [if_pos h, max_eq_right h.le]
  · rw [if_neg h, max_eq_left (not_lt.mp h), mul_zero]

theorem overlap_clamp (l u a b : ℝ) (hlu : l ≤ u) (hab : a ≤ b) :
    max 0 (min u b - max l a) = max a (min b u) - max a (min b l) := by
  rcases le_total u b with h1 | h1 <;> rcases le_total l a with h2 | h2 <;>
    rcases le_total u a with h3 | h3 <;> rcases le_total l b with h4 | h4 <;>
    simp [min_def, max_def] <;> split_ifs <;> linarith

theorem sum_clamp_telescope (t : List ℝ) (n : ℕ) (hlen : t.length = n + 1)
    (hsort : ∀ i, i + 1 < t.length → t.getD i 0 ≤ t.getD (i + 1) 0) (a b : ℝ)
    (hab : a ≤ b) :
    (∑ i ∈ Finset.range n, max 0 (min (t.getD (i + 1) 0) b - max (t.getD i 0) a))
      = max a (min b (t.getD n 0)) - max a (min b (t.getD 0 0)) := by
  have h1 : ∀ i ∈ Finset.range n,
      max 0 (min (t.getD (i + 1) 0) b - max (t.getD i 0) a)
        = (fun k => max a (min b (t.getD k 0))) (i + 1)
          - (fun k => max a (min b (t.getD k 0))) i := by
    intro i hi
    simp only [Finset.mem_range] at hi
    exact overlap_clamp _ _ _ _ (hsort i (by omega)) hab
  rw [Finset.sum_congr rfl h1, Finset.sum_range_sub (fun k => max a (min b (t.getD k 0)))]

theorem accumulatedArea_of_nonpos (source_edges source_values : List ℝ) (lo hi : ℝ)
    (h : hi ≤ lo) : accumulatedArea source_edges source_values lo hi = 0 := by
  unfold accumulatedArea
  rw [list_range_map_sum]
  apply Finset.sum_eq_zero
  intro j _
  unfold overlapContribution
  rw [if_neg]
  push_neg
  calc min hi (source_edges.getD (j + 1) 0) - max lo (source_edges.getD j 0)
      ≤ hi - lo := by
        have := min_le_left hi (source_edges.getD (j + 1) 0)
        have := le_max_left lo (source_edges.getD j 0)
        linarith
    _ ≤ 0 := by linarith

/-- C6: the conserving interpolator preserves area over the intersection of
the source and target ranges; zero-width target bins yield 0; target bins
wholly outside the source range yield 0. -/
theorem conservingInterpolate_spec
    (target_edges source_edges source_values : List ℝ) (n_tgt n_src : ℕ)
    (ht : target_edges.length = n_tgt + 1) (hs : source_edges.length = n_src + 1)
    (hv : source_values.length = n_src) (hnt : 1 ≤ n_tgt) (hns : 1 ≤ n_src)
    (htsort : ∀ i, i + 1 < target_edges.length →
      target_edges.getD i 0 ≤ target_edges.getD (i + 1) 0)
    (hssort : ∀ j, j + 1 < source_edges.length →
      source_edges.getD j 0 ≤ source_edges.getD (j + 1) 0) :
    (∑ i ∈ Finset.range n_tgt,
        (ConservingInterpolate target_edges source_edges source_values).getD i 0 *
          (target_edges.getD (i + 1) 0 - target_edges.getD i 0))
      = (∑ j ∈ Finset.range n_src,
          source_values.getD j 0 *
            max 0 (min (target_edges.getD n_tgt 0) (source_edges.getD (j + 1) 0) -
              max (target_edges.getD 0 0) (source_edges.getD j 0))) ∧
    (∀ i < n_tgt, target_edges.getD (i + 1) 0 = target_edges.getD i 0 →
      (ConservingInterpolate target_edges source_edges source_values).getD i 0 = 0) ∧
    (∀ i < n_tgt,
      (target_edges.getD (i + 1) 0 ≤ source_edges.getD 0 0 ∨
        source_edges.getD n_src 0 ≤ target_edges.getD i 0) →
      (ConservingInterpolate target_edges source_edges source_values).getD i 0 = 0) := by
  have hres : ConservingInterpolate target_edges source_edges source_values
      = (List.range n_tgt).map fun i =>
          if target_edges.getD (i + 1) 0 - target_edges.getD i 0 ≤ 0 then 0
          else accumulatedArea source_edges source_values (target_edges.getD i 0)
            (target_edges.getD (i + 1) 0) /
            (target_edges.getD (i + 1) 0 - target_edges.getD i 0) := by
    unfold ConservingInterpolate
    rw [if_neg (by omega), if_neg (by push_neg; constructor <;> omega)]
    rw [ht]
    simp only [Nat.add_sub_cancel]
  have hgetD : ∀ i < n_tgt,
      (ConservingInterpolate target_edges source_edges source_values).getD i 0
        = if target_edges.getD (i + 1) 0 - target_edges.getD i 0 ≤ 0 then 0
          else accumulatedArea source_edges source_values (target_edges.getD i 0)
            (target_edges.getD (i + 1) 0) /
            (target_edges.getD (i + 1) 0 - target_edges.getD i 0) := by
    intro i hi
    rw [hres, list_range_map_getD _ _ hi]
  refine ⟨?_, ?_, ?_⟩
  · -- area conservation
    have hstep : ∀ i ∈ Finset.range n_tgt,
        (ConservingInterpolate target_edges source_edges source_values).getD i 0 *
          (target_edges.getD (i + 1) 0 - target_edges.getD i 0)
        = accumulatedArea source_edges source_values (target_edges.getD i 0)
            (target_edges.getD (i + 1) 0) := by
      intro i hi
      simp only [Finset.mem_range] at hi
      rw [hgetD i hi]
      by_cases hw : target_edges.getD (i + 1) 0 - target_edges.getD i 0 ≤ 0
      · rw [if_pos hw, zero_mul,
          accumulatedArea_of_nonpos _ _ _ _ (by linarith)]
      · rw [if_neg hw, div_mul_cancel₀]
        intro hzero
        exact hw (le_of_eq hzero)
    rw [Finset.sum_congr rfl hstep]
    have harea : ∀ i ∈ Finset.range n_tgt,
        accumulatedArea source_edges source_values (target_edges.getD i 0)
            (target_edges.getD (i + 1) 0)
        = ∑ j ∈ Finset.range n_src, source_values.getD j 0 *
            max 0 (min (target_edges.getD (i + 1) 0) (source_edges.getD (j + 1) 0) -
              max (target_edges.getD i 0) (source_edges.getD j 0)) := by
      intro i _
      unfold accumulatedArea
      rw [list_range_map_sum, hv]
      exact Finset.sum_congr rfl fun j _ => overlapContribution_eq _ _ _ _ _
    rw [Finset.sum_congr rfl harea, Finset.sum_comm]
    apply Finset.sum_congr rfl
    intro j hj
    simp only [Finset.mem_range] at hj
    rw [← Finset.mul_sum]
    congr 1
    rw [sum_clamp_telescope target_edges n_tgt ht htsort _ _
      (hssort j (by omega))]
    rw [overlap_clamp _ _ _ _
      (adjacent_mono target_edges htsort (Nat.zero_le n_tgt) (by omega))
      (hssort j (by omega))]
  · -- zero-width target bins
    intro i hi hzero
    rw [hgetD i hi, if_pos (by rw [hzero]; simp)]
  · -- target bins wholly outside the source range
    intro i hi hout
    rw [hgetD i hi]
    by_cases hw : target_edges.getD (i + 1) 0 - target_edges.getD i 0 ≤ 0
    · rw [if_pos hw]
    · rw [if_neg hw]
      have hzero : accumulatedArea source_edges source_values (target_edges.getD i 0)
          (target_edges.getD (i + 1) 0) = 0 := by
        unfold accumulatedArea
        rw [list_range_map_sum, hv]
        apply Finset.sum_eq_zero
        intro j hjr
        simp only [Finset.mem_range] at hjr
        unfold overlapContribution
        rw [if_neg]
        push_neg
        rcases hout with hcase | hcase
        · have h0j : source_edges.getD 0 0 ≤ source_edges.getD j 0 :=
            adjacent_mono source_edges hssort (Nat.zero_le j) (by omega)
          have := min_le_left (target_edges.getD (i + 1) 0) (source_edges.getD (j + 1) 0)
          have := le_max_right (target_edges.getD i 0) (source_edges.getD j 0)
          linarith
        · have hjn : source_edges.getD (j + 1) 0 ≤ source_edges.getD n_src 0 :=
            adjacent_mono source_edges hssort (by omega) (by omega)
          have := min_le_right (target_edges.getD (i + 1) 0) (source_edges.getD (j + 1) 0)
          have := le_max_left (target_edges.getD i 0) (source_edges.getD j 0)
          linarith
      rw [hzero, zero_div]

/-- Witness for C6: a concrete resampling where the second target bin lies
wholly outside the source range and receives exactly 0. -/
theorem conservingInterpolate_spec_witness :
    (ConservingInterpolate [0, 2, 4] [0, 1, 2] [2, 6]).getD 1 0 = 0 :=
  (conservingInterpolate_spec [0, 2, 4] [0, 1, 2] [2, 6] 2 2 rfl rfl rfl
      (by norm_num) (by norm_num)
      (by
        intro i hi
        simp only [List.length_cons, List.length_nil] at hi
        match i with
        | 0 => norm_num [List.getD]
        | 1 => norm_num [List.getD]
        | n + 2 => omega)
      (by
        intro i hi
        simp only [List.length_cons, List.length_nil] at hi
        match i with
        | 0 => norm_num [List.getD]
        | 1 => norm_num [List.getD]
        | n + 2 => omega)).2.2 1 (by norm_num)
    (by right; norm_num [List.getD])

/-! ### LinearInterpolator, temperature interpolation, BaseCrossSection,
BaseQuantumYield (`src/include/tuvx/interpolation/linear_interpolator.hpp`,
`src/include/tuvx/cross_section/temperature_based.hpp`,
`src/include/tuvx/cross_section/types/base.hpp`,
`src/include/tuvx/quantum_yield/types/base.hpp`) -/

/-- `Grid::Midpoints` (computed from the edges in
`Grid::ComputeMidpointsAndDeltas`). -/
noncomputable def Grid.Midpoints (g : Grid) : List ℝ :=
  (List.range g.n_cells).map fun i => (g.edges.getD i 0 + g.edges.getD (i + 1) 0) / 2

/-- `Grid::Deltas`. -/
noncomputable def Grid.Deltas (g : Grid) : List ℝ :=
  (List.range g.n_cells).map fun i => g.edges.getD (i + 1) 0 - g.edges.getD i 0

/-- `LinearInterpolator::InterpolateSingle`: boundary values outside the
source range, else linear interpolation on the `std::upper_bound` bracket. -/
noncomputable def InterpolateSingle (x : ℝ) (source_x source_y : List ℝ) : ℝ :=
  if x ≤ source_x.headD 0 then source_y.headD 0
  else if source_x.getLastD 0 ≤ x then source_y.getLastD 0
  else
    let i_upper := firstIdx (fun e => x < e) source_x
    let i_lower := i_upper - 1
    let x0 := source_x.getD i_lower 0
    let x1 := source_x.getD i_upper 0
    let y0 := source_y.getD i_lower 0
    let y1 := source_y.getD i_upper 0
    y0 + (x - x0) / (x1 - x0) * (y1 - y0)

/-- `LinearInterpolator::Interpolate`: zero vector for empty or
size-mismatched sources, else pointwise `InterpolateSingle`. -/
noncomputable def LinearInterpolate (target_x source_x source_y : List ℝ) : List ℝ :=
  if source_x.isEmpty || source_y.isEmpty then List.replicate target_x.length 0
  else if source_x.length ≠ source_y.length then List.replicate target_x.length 0
  else target_x.map fun x => InterpolateSingle x source_x source_y

/-- `TemperatureBasedCrossSection::InterpolateTemperature`: clamp the target
temperature to the reference range, bracket with `std::lower_bound`, and
linearly interpolate the two bracketing rows. -/
noncomputable def InterpolateTemperature (target_temperature : ℝ)
    (reference_temperatures : List ℝ) (cross_section_data : List (List ℝ)) : List ℝ :=
  if reference_temperatures.isEmpty || cross_section_data.isEmpty then []
  else
    let n_temps := reference_temperatures.length
    let n_wavelengths := (cross_section_data.headD []).length
    let temp_lo := reference_temperatures.headD 0
    let temp_hi := reference_temperatures.getLastD 0
    let clamped_temp := rclamp target_temperature temp_lo temp_hi
    let k := firstIdx (fun t => clamped_temp ≤ t) reference_temperatures
    if k = 0 then cross_section_data.headD []
    else if k = n_temps then cross_section_data.getD (n_temps - 1) []
    else
      let i_lower := k - 1
      let t_lower := reference_temperatures.getD i_lower 0
      let t_upper := reference_temperatures.getD k 0
      if |t_upper - t_lower| < 1e-10 then cross_section_data.getD i_lower []
      else
        let weight := (clamped_temp - t_lower) / (t_upper - t_lower)
        (List.range n_wavelengths).map fun i =>
          (cross_section_data.getD i_lower []).getD i 0 +
            weight * ((cross_section_data.getD k []).getD i 0 -
              (cross_section_data.getD i_lower []).getD i 0)

/-- `BaseCrossSection`: lookup-table cross-section with reference
wavelengths, reference temperatures and σ data `[n_T][n_λ]`.  (The name
string is not modelled.) -/
structure BaseCrossSection where
  wavelengths : List ℝ
  reference_temperatures : List ℝ
  cross_section_data : List (List ℝ)

/-- `BaseCrossSection::Calculate`: temperature interpolation when multiple
reference temperatures are stored, then wavelength interpolation onto the
grid midpoints, then zeroing outside the reference wavelength range.
There is no clamp of in-range values. -/
noncomputable def BaseCrossSection.Calculate (c : BaseCrossSection) (grid : Grid)
    (temperature : ℝ) : List ℝ :=
  let temp_xs :=
    if c.reference_temperatures.length = 1 then c.cross_section_data.headD []
    else InterpolateTemperature temperature c.reference_temperatures c.cross_section_data
  let target_wavelengths := grid.Midpoints
  let result := LinearInterpolate target_wavelengths c.wavelengths temp_xs
  let wl_min := c.wavelengths.headD 0
  let wl_max := c.wavelengths.getLastD 0
  (List.range grid.n_cells).map fun i =>
    let wl := target_wavelengths.getD i 0
    if wl < wl_min ∨ wl_max < wl then 0 else result.getD i 0

/-- `BaseQuantumYield`: wavelength-dependent yield from a lookup table.
(The name/reactant/products strings are not modelled.) -/
structure BaseQuantumYield where
  wavelengths : List ℝ
  quantum_yields : List ℝ

/-- `BaseQuantumYield::Calculate`: wavelength interpolation onto the grid
midpoints, zero outside the reference wavelength range, clamp to `[0, 1]`
inside it.  Temperature and air density are ignored by this type. -/
noncomputable def BaseQuantumYield.Calculate (q : BaseQuantumYield) (grid : Grid)
    (_temperature _air_density : ℝ) : List ℝ :=
  if q.wavelengths.isEmpty then List.replicate grid.n_cells 0
  else
    let target_wavelengths := grid.Midpoints
    let result := LinearInterpolate target_wavelengths q.wavelengths q.quantum_yields
    let wl_min := q.wavelengths.headD 0
    let wl_max := q.wavelengths.getLastD 0
    (List.range grid.n_cells).map fun i =>
      let wl := target_wavelengths.getD i 0
      if wl < wl_min ∨ wl_max < wl then 0 else rclamp (result.getD i 0) 0 1

theorem interpolateSingle_neg_example :
    InterpolateSingle 1 [0, 2] [-1, -1] = -1 := by
  have hfi : firstIdx (fun e => (1 : ℝ) < e) [0, 2] = 1 := by
    simp only [firstIdx]
    rw [if_neg (by norm_num), if_pos (by norm_num)]
  unfold InterpolateSingle
  rw [if_neg (by norm_num [List.headD]), if_neg (by norm_num [List.getLastD])]
  simp only [hfi]
  norm_num [List.getD]

/-- C3 counterexample: `BaseCrossSection::Calculate` applies no `≥ 0` clamp;
with reference data `σ = -1` on `[0, 2]` the result at the in-range grid
midpoint 1 is `-1 < 0`, contradicting the claimed clamping. -/
theorem baseCrossSection_no_clamp_counterexample :
    (BaseCrossSection.Calculate ⟨[0, 2], [298], [[-1, -1]]⟩ ⟨1, [0, 2]⟩ 298).getD 0 0 < 0 := by
  have hmid : (Grid.mk 1 [0, 2]).Midpoints = [1] := by
    unfold Grid.Midpoints
    rw [show List.range 1 = [0] from rfl]
    norm_num [List.getD]
  have hlin : LinearInterpolate [1] [0, 2] [-1, -1] = [-1] := by
    unfold LinearInterpolate
    rw [if_neg (by norm_num), if_neg (by norm_num)]
    simp [interpolateSingle_neg_example]
  unfold BaseCrossSection.Calculate
  simp only [hmid]
  norm_num [hlin, List.getD, List.headD, List.getLastD]

/-- C3 amended: `BaseCrossSection::Calculate` and
`BaseQuantumYield::Calculate` both return `grid.n_cells` values that are
exactly 0 at midpoints strictly outside the reference wavelength range; the
quantum yield is clamped to `[0, 1]` at in-range midpoints; the
cross-section in-range values are returned unclamped (see the
counterexample). -/
theorem baseCalculate_range_spec (c : BaseCrossSection) (q : BaseQuantumYield)
    (grid : Grid) (T rho : ℝ) (_hc : c.wavelengths ≠ []) (hq : q.wavelengths ≠ []) :
    (c.Calculate grid T).length = grid.n_cells ∧
    (∀ i < grid.n_cells,
      (grid.Midpoints.getD i 0 < c.wavelengths.headD 0 ∨
        c.wavelengths.getLastD 0 < grid.Midpoints.getD i 0) →
      (c.Calculate grid T).getD i 0 = 0) ∧
    (q.Calculate grid T rho).length = grid.n_cells ∧
    (∀ i < grid.n_cells,
      (grid.Midpoints.getD i 0 < q.wavelengths.headD 0 ∨
        q.wavelengths.getLastD 0 < grid.Midpoints.getD i 0) →
      (q.Calculate grid T rho).getD i 0 = 0) ∧
    (∀ i < grid.n_cells,
      q.wavelengths.headD 0 ≤ grid.Midpoints.getD i 0 →
      grid.Midpoints.getD i 0 ≤ q.wavelengths.getLastD 0 →
      0 ≤ (q.Calculate grid T rho).getD i 0 ∧ (q.Calculate grid T rho).getD i 0 ≤ 1) := by
  have hqcalc : q.Calculate grid T rho
      = (List.range grid.n_cells).map fun i =>
          if grid.Midpoints.getD i 0 < q.wavelengths.headD 0 ∨
              q.wavelengths.getLastD 0 < grid.Midpoints.getD i 0 then 0
          else rclamp ((LinearInterpolate grid.Midpoints q.wavelengths
            q.quantum_yields).getD i 0) 0 1 := by
    unfold BaseQuantumYield.Calculate
    rw [if_neg (by simp [hq])]
  refine ⟨?_, ?_, ?_, ?_, ?_⟩
  · unfold BaseCrossSection.Calculate
    simp
  · intro i hi hout
    unfold BaseCrossSection.Calculate
    rw [list_range_map_getD _ _ hi, if_pos hout]
  · rw [hqcalc]
    simp
  · intro i hi hout
    rw [hqcalc, list_range_map_getD _ _ hi, if_pos hout]
  · intro i hi hlo hhi
    rw [hqcalc, list_range_map_getD _ _ hi,
      if_neg (by push_neg; exact ⟨hlo, hhi⟩)]
    exact rclamp_mem _ 0 1 (by norm_num)

/-- Witness for the amended C3: a concrete cross-section and yield on a grid
whose only midpoint (5) lies above the reference range `[0, 2]`, so both
return exactly 0 there. -/
theorem baseCalculate_range_spec_witness :
    (BaseCrossSection.Calculate ⟨[0, 2], [298], [[-1, -1]]⟩ ⟨1, [4, 6]⟩ 298).getD 0 0 = 0 ∧
    (BaseQuantumYield.Calculate ⟨[0, 2], [1, 1]⟩ ⟨1, [4, 6]⟩ 298 0).getD 0 0 = 0 := by
  have hmid : (Grid.mk 1 [4, 6]).Midpoints = [5] := by
    unfold Grid.Midpoints
    rw [show List.range 1 = [0] from rfl]
    norm_num [List.getD]
  have h := baseCalculate_range_spec ⟨[0, 2], [298], [[-1, -1]]⟩ ⟨[0, 2], [1, 1]⟩
    ⟨1, [4, 6]⟩ 298 0 (by simp) (by simp)
  exact ⟨h.2.1 0 (by norm_num) (by rw [hmid]; right; norm_num [List.getD, List.getLastD]),
    h.2.2.2.1 0 (by norm_num) (by rw [hmid]; right; norm_num [List.getD, List.getLastD])⟩

/-! ### RadiationField
(`src/include/tuvx/radiation_field/radiation_field.hpp`) -/

/-- Level-resolved radiation output: five `[n_levels][n_wavelengths]`
arrays of doubles. -/
structure RadiationField where
  direct_irradiance : List (List FP)
  diffuse_up : List (List FP)
  diffuse_down : List (List FP)
  actinic_flux_direct : List (List FP)
  actinic_flux_diffuse : List (List FP)

/-- `RadiationField::Initialize`: all five arrays zero-filled. -/
def RadiationField.Initialize (n_levels n_wavelengths : ℕ) : RadiationField where
  direct_irradiance := List.replicate n_levels (List.replicate n_wavelengths (some 0))
  diffuse_up := List.replicate n_levels (List.replicate n_wavelengths (some 0))
  diffuse_down := List.replicate n_levels (List.replicate n_wavelengths (some 0))
  actinic_flux_direct := List.replicate n_levels (List.replicate n_wavelengths (some 0))
  actinic_flux_diffuse := List.replicate n_levels (List.replicate n_wavelengths (some 0))

/-- `RadiationField::NumberOfLevels`. -/
def RadiationField.NumberOfLevels (f : RadiationField) : ℕ := f.direct_irradiance.length

/-- `RadiationField::NumberOfWavelengths`. -/
def RadiationField.NumberOfWavelengths (f : RadiationField) : ℕ :=
  match f.direct_irradiance with
  | [] => 0
  | r :: _ => r.length

/-- `RadiationField::Empty`. -/
def RadiationField.Empty (f : RadiationField) : Bool := f.direct_irradiance.isEmpty

/-- `a[i][j]` on a `[n_levels][n_wavelengths]` array of doubles. -/
def idxF (a : List (List FP)) (i j : ℕ) : FP := (a.getD i []).getD j none

/-- `RadiationField::TotalActinicFlux`: direct plus diffuse actinic flux at
one level (empty for an out-of-range level index). -/
def RadiationField.TotalActinicFlux (f : RadiationField) (level : ℕ) : List FP :=
  if f.NumberOfLevels ≤ level then []
  else
    (List.range f.NumberOfWavelengths).map fun j =>
      fpAdd (idxF f.actinic_flux_direct level j) (idxF f.actinic_flux_diffuse level j)

/-- One element-wise addition `this[i][j] += other[i][j]` of
`RadiationField::Accumulate`; `none` when either index is out of range for
either array (the C++ code reads out of bounds there). -/
def addCell (A B : List (List FP)) (i j : ℕ) : Option FP := do
  let ra ← A[i]?
  let a ← ra[j]?
  let rb ← B[i]?
  let b ← rb[j]?
  pure (fpAdd a b)

/-- Collect the first `n` values of a fallible row, failing if any cell does. -/
def collectRow (g : ℕ → Option FP) : ℕ → Option (List FP)
  | 0 => some []
  | n + 1 => do
    let l ← collectRow g n
    let x ← g n
    pure (l ++ [x])

/-- Collect the first `n` rows of a fallible table, failing if any row does. -/
def collectTable (h : ℕ → Option (List FP)) : ℕ → Option (List (List FP))
  | 0 => some []
  | n + 1 => do
    let l ← collectTable h n
    let r ← h n
    pure (l ++ [r])

/-- The double loop of `RadiationField::Accumulate` over one pair of arrays:
iterate `i < n_levels`, `j < n_wavelengths` (the receiver's own counts)
adding cells; any out-of-range access fails. -/
def accumulateArrays (A B : List (List FP)) (n_levels n_wavelengths : ℕ) :
    Option (List (List FP)) :=
  collectTable (fun i => collectRow (fun j => addCell A B i j) n_wavelengths) n_levels

/-- `RadiationField::Accumulate`: no-op for an empty other field, adoption
for an empty receiver, otherwise element-wise addition over the receiver's
own level/wavelength counts with NO dimension check — `none` models the
out-of-bounds access that occurs when the other field is smaller. -/
def RadiationField.Accumulate (f other : RadiationField) : Option RadiationField :=
  if other.Empty then some f
  else if f.Empty then some other
  else do
    let n_levels := f.NumberOfLevels
    let n_wavelengths := f.NumberOfWavelengths
    let di ← accumulateArrays f.direct_irradiance other.direct_irradiance n_levels n_wavelengths
    let du ← accumulateArrays f.diffuse_up other.diffuse_up n_levels n_wavelengths
    let dd ← accumulateArrays f.diffuse_down other.diffuse_down n_levels n_wavelengths
    let ad ← accumulateArrays f.actinic_flux_direct other.actinic_flux_direct
      n_levels n_wavelengths
    let adf ← accumulateArrays f.actinic_flux_diffuse other.actinic_flux_diffuse
      n_levels n_wavelengths
    pure ⟨di, du, dd, ad, adf⟩

/-- All five arrays of a `RadiationField` have shape `[L][W]`. -/
def RadiationField.Shaped (f : RadiationField) (L W : ℕ) : Prop :=
  Shaped2 f.direct_irradiance L W ∧ Shaped2 f.diffuse_up L W ∧
    Shaped2 f.diffuse_down L W ∧ Shaped2 f.actinic_flux_direct L W ∧
    Shaped2 f.actinic_flux_diffuse L W

theorem collectRow_none (g : ℕ → Option FP) (n j : ℕ) (hj : j < n) (hg : g j = none) :
    collectRow g n = none := by
  induction n with
  | zero => omega
  | succ n ih =>
    rcases Nat.lt_or_ge j n with h | h
    · unfold collectRow
      rw [ih h]
      rfl
    · have : j = n := by omega
      subst this
      unfold collectRow
      rw [hg]
      cases collectRow g j <;> rfl

theorem collectTable_none (h : ℕ → Option (List FP)) (n i : ℕ) (hi : i < n)
    (hh : h i = none) : collectTable h n = none := by
  induction n with
  | zero => omega
  | succ n ih =>
    rcases Nat.lt_or_ge i n with hc | hc
    · unfold collectTable
      rw [ih hc]
      rfl
    · have : i = n := by omega
      subst this
      unfold collectTable
      rw [hh]
      cases collectTable h i <;> rfl

theorem shaped2_getElem {α : Type} {a : List (List α)} {n m : ℕ} (h : Shaped2 a n m)
    {i : ℕ} (hi : i < n) : ∃ r, a[i]? = some r ∧ r.length = m := by
  have hlen : i < a.length := by rw [h.1]; exact hi
  exact ⟨a[i], List.getElem?_eq_getElem hlen, h.2 _ (List.getElem_mem hlen)⟩

theorem shaped2_getElem_none {α : Type} {a : List (List α)} {n m : ℕ}
    (h : Shaped2 a n m) {i : ℕ} (hi : n ≤ i) : a[i]? = none :=
  List.getElem?_eq_none (by rw [h.1]; exact hi)

theorem addCell_none_of_level (A B : List (List FP)) {L W Lo Wo : ℕ}
    (hA : Shaped2 A L W) (hB : Shaped2 B Lo Wo) (hLo : Lo < L) (hW : 0 < W) :
    addCell A B Lo 0 = none := by
  obtain ⟨ra, hra, hralen⟩ := shaped2_getElem hA hLo
  obtain ⟨a, ha⟩ : ∃ a, ra[0]? = some a := by
    rw [List.getElem?_eq_getElem (by omega)]
    exact ⟨_, rfl⟩
  unfold addCell
  rw [hra, shaped2_getElem_none hB (le_refl Lo)]
  simp [ha]

theorem addCell_none_of_wavelength (A B : List (List FP)) {L W Lo Wo : ℕ}
    (hA : Shaped2 A L W) (hB : Shaped2 B Lo Wo) (hL : 0 < L) (hLo : 0 < Lo)
    (hWo : Wo < W) : addCell A B 0 Wo = none := by
  obtain ⟨ra, hra, hralen⟩ := shaped2_getElem hA hL
  obtain ⟨a, ha⟩ : ∃ a, ra[Wo]? = some a := by
    rw [List.getElem?_eq_getElem (by omega)]
    exact ⟨_, rfl⟩
  obtain ⟨rb, hrb, hrblen⟩ := shaped2_getElem hB hLo
  have hb : rb[Wo]? = none := List.getElem?_eq_none (by omega)
  unfold addCell
  rw [hra, hrb]
  simp [ha, hb]

theorem RadiationField.numberOfLevels_of_shaped {f : RadiationField} {L W : ℕ}
    (hf : f.Shaped L W) : f.NumberOfLevels = L := hf.1.1

theorem RadiationField.numberOfWavelengths_eq_of_shaped {f : RadiationField} {L W : ℕ}
    (hf : f.Shaped L W) (hL : 0 < L) : f.NumberOfWavelengths = W := by
  obtain ⟨⟨hlen, hrow⟩, _⟩ := hf
  unfold RadiationField.NumberOfWavelengths
  match h : f.direct_irradiance with
  | [] => rw [h] at hlen; simp at hlen; omega
  | r :: rest => exact hrow r (by rw [h]; exact List.mem_cons_self r rest)

theorem RadiationField.empty_iff_of_shaped {f : RadiationField} {L W : ℕ}
    (hf : f.Shaped L W) : f.Empty = true ↔ L = 0 := by
  obtain ⟨⟨hlen, _⟩, _⟩ := hf
  subst hlen
  simp [RadiationField.Empty, List.isEmpty_iff_length_eq_zero]

/-- C10: `RadiationField::Accumulate` performs no dimension validation —
for non-empty fields whose level or wavelength count is smaller than the
receiver's, the element-wise loop indexes the other field's arrays out of
range (modelled as `none`), in contrast to `RadiatorState::Accumulate`,
which reports a dimension-mismatch error. -/
theorem radiationField_accumulate_no_dimension_check
    (f other : RadiationField) (L W Lo Wo : ℕ)
    (hf : f.Shaped L W) (ho : other.Shaped Lo Wo)
    (hL : 0 < L) (hW : 0 < W) (hLo : 0 < Lo)
    (hmis : Lo < L ∨ Wo < W) :
    f.Accumulate other = none ∧
    (∀ (A B : RadiatorState) (n m nB mB : ℕ), A.Shaped n m → B.Shaped nB mB →
      0 < n → 0 < nB → (nB ≠ n ∨ mB ≠ m) →
      A.Accumulate B = .error "Cannot accumulate RadiatorState with different dimensions") := by
  constructor
  · have hdirect : accumulateArrays f.direct_irradiance other.direct_irradiance
        f.NumberOfLevels f.NumberOfWavelengths = none := by
      rw [f.numberOfLevels_of_shaped hf, f.numberOfWavelengths_eq_of_shaped hf hL]
      rcases hmis with hcase | hcase
      · exact collectTable_none _ L Lo hcase
          (collectRow_none _ W 0 hW (addCell_none_of_level _ _ hf.1 ho.1 hcase hW))
      · exact collectTable_none _ L 0 hL
          (collectRow_none _ W Wo hcase
            (addCell_none_of_wavelength _ _ hf.1 ho.1 hL hLo hcase))
    unfold RadiationField.Accumulate
    rw [if_neg (by simp [(other.empty_iff_of_shaped ho).not.mpr (by omega)]),
      if_neg (by simp [(f.empty_iff_of_shaped hf).not.mpr (by omega)])]
    simp only [hdirect]
    rfl
  · intro A B n m nB mB hA hB hn hnB hne
    unfold RadiatorState.Accumulate
    rw [if_neg (by simp [(B.shaped_empty_iff hB).not.mpr (by omega)]),
      if_neg (by simp [(A.shaped_empty_iff hA).not.mpr (by omega)])]
    rw [if_pos]
    rw [A.numberOfLayers_of_shaped hA, B.numberOfLayers_of_shaped hB,
      A.numberOfWavelengths_of_shaped hA hn, B.numberOfWavelengths_of_shaped hB hnB]
    exact hne

theorem initialize_shaped (L W : ℕ) : (RadiationField.Initialize L W).Shaped L W := by
  refine ⟨?_, ?_, ?_, ?_, ?_⟩ <;>
    exact ⟨List.length_replicate _ _, fun r hr => by
      rw [List.eq_of_mem_replicate hr]; exact List.length_replicate _ _⟩

/-- Witness for C10: a 2-level field accumulating a 1-level field hits an
out-of-range read. -/
theorem radiationField_accumulate_no_dimension_check_witness :
    (RadiationField.Initialize 2 1).Accumulate (RadiationField.Initialize 1 1) = none :=
  (radiationField_accumulate_no_dimension_check
    (RadiationField.Initialize 2 1) (RadiationField.Initialize 1 1) 2 1 1 1
    (initialize_shaped 2 1) (initialize_shaped 1 1)
    (by norm_num) (by norm_num) (by norm_num) (Or.inl (by norm_num))).1

/-! ### PhotolysisRateCalculator
(`src/include/tuvx/photolysis/photolysis_rate.hpp`) -/

theorem list_range_map_getD_poly {α : Type} (d : α) (n : ℕ) (f : ℕ → α) {i : ℕ}
    (hi : i < n) : ((List.range n).map f).getD i d = f i := by
  rw [List.getD_eq_getElem _ _ (by simpa using hi), List.getElem_map, List.getElem_range]

/-- The per-level temperature selection in
`PhotolysisRateCalculator::Calculate`: 298 K default; with a non-empty
profile, the layer below the level (layer 0 at the surface level, which is
what `(level > 0) ? level - 1 : 0` computes — the same as truncated `ℕ`
subtraction), falling back to 298 K when that layer is beyond the profile. -/
noncomputable def photolysisLevelTemperature (temperature_profile : List ℝ)
    (level : ℕ) : ℝ :=
  if temperature_profile.isEmpty then 298
  else
    let layer := level - 1
    if layer < temperature_profile.length then temperature_profile.getD layer 298
    else 298

/-- `PhotolysisRateCalculator::Calculate`: at each level, integrate
(total actinic flux) × σ × φ × |Δλ| over the wavelength cells.  The
polymorphic cross-section and quantum-yield objects are abstracted as
functions of the grid and temperature. -/
noncomputable def PhotolysisCalculate (xs qy : Grid → ℝ → List ℝ)
    (radiation_field : RadiationField) (wavelength_grid : Grid)
    (temperature_profile : List ℝ) : List FP :=
  if radiation_field.Empty then []
  else
    let n_levels := radiation_field.NumberOfLevels
    let n_wavelengths := radiation_field.NumberOfWavelengths
    let deltas := wavelength_grid.Deltas
    (List.range n_levels).map fun level =>
      let temperature := photolysisLevelTemperature temperature_profile level
      let xs_values := xs wavelength_grid temperature
      let qy_values := qy wavelength_grid temperature
      let actinic_flux := radiation_field.TotalActinicFlux level
      (List.range n_wavelengths).foldl
        (fun acc j => fpAdd acc
          (fpMul (fpMul (fpMul (actinic_flux.getD j none) (some (xs_values.getD j 0)))
            (some (qy_values.getD j 0))) (some |deltas.getD j 0|)))
        (some 0)

theorem foldl_fpAdd_sum (n : ℕ) (g : ℕ → FP) (t : ℕ → ℝ)
    (hg : ∀ j < n, g j = some (t j)) :
    (List.range n).foldl (fun acc j => fpAdd acc (g j)) (some 0)
      = some (∑ j ∈ Finset.range n, t j) := by
  have main : ∀ init : ℝ, (List.range n).foldl (fun acc j => fpAdd acc (g j)) (some init)
      = some (init + ∑ j ∈ Finset.range n, t j) := by
    induction n with
    | zero => intro init; simp
    | succ n ih =>
      intro init
      rw [List.range_succ, List.foldl_append, List.foldl_cons, List.foldl_nil,
        ih (fun j hj => hg j (by omega)), hg n (by omega), Finset.sum_range_succ]
      simp only [fpAdd_some]
      rw [Option.some_inj]
      ring
  rw [main 0, zero_add]

/-- C8: `PhotolysisRateCalculator::Calculate` returns, for each level, the
sum over wavelength cells of (direct + diffuse actinic flux) · σ · φ · |Δλ|
at the level's selected temperature; consequently J is 0 everywhere when σ
or φ is identically zero, and J ≥ 0 when fluxes, σ and φ are nonnegative. -/
theorem photolysisCalculate_spec (xs qy : Grid → ℝ → List ℝ)
    (radiation_field : RadiationField) (wavelength_grid : Grid)
    (temperature_profile : List ℝ) (L W : ℕ) (aDir aDif : ℕ → ℕ → ℝ)
    (hf : radiation_field.Shaped L W) (hL : 0 < L)
    (hdir : ∀ i < L, ∀ j < W, idxF radiation_field.actinic_flux_direct i j = some (aDir i j))
    (hdif : ∀ i < L, ∀ j < W, idxF radiation_field.actinic_flux_diffuse i j = some (aDif i j)) :
    ((PhotolysisCalculate xs qy radiation_field wavelength_grid temperature_profile).length
        = L ∧
      ∀ level < L,
        (PhotolysisCalculate xs qy radiation_field wavelength_grid
            temperature_profile).getD level none
          = some (∑ j ∈ Finset.range W,
              (aDir level j + aDif level j) *
                ((xs wavelength_grid (photolysisLevelTemperature temperature_profile
                  level)).getD j 0) *
                ((qy wavelength_grid (photolysisLevelTemperature temperature_profile
                  level)).getD j 0) *
                |wavelength_grid.Deltas.getD j 0|)) ∧
    (((∀ T : ℝ, ∀ j < W, (xs wavelength_grid T).getD j 0 = 0) ∨
        (∀ T : ℝ, ∀ j < W, (qy wavelength_grid T).getD j 0 = 0)) →
      ∀ level < L,
        (PhotolysisCalculate xs qy radiation_field wavelength_grid
          temperature_profile).getD level none = some 0) ∧
    ((∀ i < L, ∀ j < W, 0 ≤ aDir i j ∧ 0 ≤ aDif i j) →
      (∀ T : ℝ, ∀ j < W, 0 ≤ (xs wavelength_grid T).getD j 0 ∧
        0 ≤ (qy wavelength_grid T).getD j 0) →
      ∀ level < L, ∃ r, (PhotolysisCalculate xs qy radiation_field wavelength_grid
        temperature_profile).getD level none = some r ∧ 0 ≤ r) := by
  have hne : radiation_field.Empty = false := by
    simp [(radiation_field.empty_iff_of_shaped hf).not.mpr (by omega)]
  have hflux : ∀ level < L, ∀ j < W,
      (radiation_field.TotalActinicFlux level).getD j none
        = some (aDir level j + aDif level j) := by
    intro level hlevel j hj
    unfold RadiationField.TotalActinicFlux
    rw [if_neg (by rw [radiation_field.numberOfLevels_of_shaped hf]; omega)]
    rw [radiation_field.numberOfWavelengths_eq_of_shaped hf hL]
    rw [list_range_map_getD_poly none W _ hj, hdir level hlevel j hj,
      hdif level hlevel j hj]
    rfl
  have hcalc : PhotolysisCalculate xs qy radiation_field wavelength_grid temperature_profile
      = (List.range L).map fun level =>
          (List.range W).foldl
            (fun acc j => fpAdd acc
              (fpMul (fpMul (fpMul ((radiation_field.TotalActinicFlux level).getD j none)
                (some ((xs wavelength_grid (photolysisLevelTemperature temperature_profile
                  level)).getD j 0)))
                (some ((qy wavelength_grid (photolysisLevelTemperature temperature_profile
                  level)).getD j 0)))
                (some |wavelength_grid.Deltas.getD j 0|)))
            (some 0) := by
    unfold PhotolysisCalculate
    rw [if_neg (by simp [hne])]
    rw [radiation_field.numberOfLevels_of_shaped hf,
      radiation_field.numberOfWavelengths_eq_of_shaped hf hL]
  have hformula : ∀ level < L,
      (PhotolysisCalculate xs qy radiation_field wavelength_grid
          temperature_profile).getD level none
        = some (∑ j ∈ Finset.range W,
            (aDir level j + aDif level j) *
              ((xs wavelength_grid (photolysisLevelTemperature temperature_profile
                level)).getD j 0) *
              ((qy wavelength_grid (photolysisLevelTemperature temperature_profile
                level)).getD j 0) *
              |wavelength_grid.Deltas.getD j 0|) := by
    intro level hlevel
    rw [hcalc, list_range_map_getD_poly none L _ hlevel]
    apply foldl_fpAdd_sum
    intro j hj
    rw [hflux level hlevel j hj]
    rfl
  refine ⟨⟨?_, hformula⟩, ?_, ?_⟩
  · rw [hcalc]
    simp
  · intro hzero level hlevel
    rw [hformula level hlevel]
    congr 1
    apply Finset.sum_eq_zero
    intro j hjr
    simp only [Finset.mem_range] at hjr
    rcases hzero with hz | hz
    · rw [hz _ j hjr]
      ring
    · rw [hz _ j hjr]
      ring
  · intro hfluxnn hsp level hlevel
    rw [hformula level hlevel]
    refine ⟨_, rfl, ?_⟩
    apply Finset.sum_nonneg
    intro j hjr
    simp only [Finset.mem_range] at hjr
    have h1 := hfluxnn level hlevel j hjr
    have h2 := hsp (photolysisLevelTemperature temperature_profile level) j hjr
    have h3 : (0 : ℝ) ≤ |wavelength_grid.Deltas.getD j 0| := abs_nonneg _
    have h4 : 0 ≤ aDir level j + aDif level j := add_nonneg h1.1 h1.2
    exact mul_nonneg (mul_nonneg (mul_nonneg h4 h2.1) h2.2) h3

/-- Witness for C8: a 1-level, 1-wavelength zero-initialized field with zero
cross-section yields J = 0 through the formula. -/
theorem photolysisCalculate_spec_witness :
    (PhotolysisCalculate (fun _ _ => [0]) (fun _ _ => [1])
      (RadiationField.Initialize 1 1) ⟨1, [300, 310]⟩ []).getD 0 none = some 0 :=
  (photolysisCalculate_spec (fun _ _ => [0]) (fun _ _ => [1])
    (RadiationField.Initialize 1 1) ⟨1, [300, 310]⟩ [] 1 1 (fun _ _ => 0) (fun _ _ => 0)
    (initialize_shaped 1 1) (by norm_num)
    (by
      intro i hi j hj
      have : i = 0 ∧ j = 0 := by omega
      rw [this.1, this.2]
      rfl)
    (by
      intro i hi j hj
      have : i = 0 ∧ j = 0 := by omega
      rw [this.1, this.2]
      rfl)).2.1
    (Or.inl (by
      intro T j hj
      have : j = 0 := by omega
      rw [this]
      rfl))
    0 (by norm_num)

/-! ### DeltaEddingtonSolver (`src/include/tuvx/solver/delta_eddington.hpp`)
and constants (`src/include/tuvx/util/constants.hpp`) -/

/-- `constants::kPi` — the double literal, slightly below the real π. -/
noncomputable def kPi : ℝ := 3.14159265358979323846

/-- `constants::kDegreesToRadians = kPi / 180`. -/
noncomputable def kDegreesToRadians : ℝ := kPi / 180

/-- `DeltaEddingtonSolver::DeltaScale`: delta-M scaling with `f = g²`.
`τ̃` involves no division and stays an ordinary real; `ω̃` and `g̃` divide
by `1 - ωf` and `1 - f`, which are zero at the boundary `|g| = 1` (0/0 is
NaN there), and are then clamped. -/
noncomputable def DeltaScale (tau omega g : ℝ) : ℝ × FP × FP :=
  let f := g * g
  let tau_scaled := tau * (1 - omega * f)
  let omega_scaled := fpDiv (some (omega * (1 - f))) (some (1 - omega * f))
  let g_scaled := fpDiv (some (g - f)) (some (1 - f))
  (tau_scaled, fpClamp omega_scaled 0 1, fpClamp g_scaled (-1) 1)

/-- The body of the first per-layer pass of
`DeltaEddingtonSolver::SolveTwoStream` (lines 230-275): layer reflectance,
transmittance and direct-beam source term `(r, t, src)`.  Degenerate layers
(`τ̃ < 1e-10` or `ω̃ < 1e-10`, false for a NaN `ω̃` as in IEEE) fall back to
`(0, exp(-τ̃/μ₀), 0)`.  (`1/μ₀` is real division; the solver only calls
this with `μ₀ > 0`.) -/
noncomputable def layerCoefficients (tau omega g mu0 : ℝ) : FP × FP × FP :=
  let s := DeltaScale tau omega g
  let tau_s := s.1
  let omega_s := s.2.1
  let g_s := s.2.2
  if tau_s < 1e-10 ∨ fpLt omega_s (some 1e-10) then
    (some 0, some (Real.exp (-(tau_s / mu0))), some 0)
  else
    let gamma1 := fpDiv (fpSub (some 7) (fpMul omega_s (fpAdd (some 4)
      (fpMul (some 3) g_s)))) (some 4)
    let gamma2 := fpDiv (fpNeg (fpSub (some 1) (fpMul omega_s (fpSub (some 4)
      (fpMul (some 3) g_s))))) (some 4)
    let gamma3 := fpDiv (fpSub (some 2) (fpMul (fpMul (some 3) g_s) (some mu0))) (some 4)
    let gamma4 := fpSub (some 1) gamma3
    let lam := fpSqrt (fpSub (fpMul gamma1 gamma1) (fpMul gamma2 gamma2))
    let Gam := fpDiv gamma2 (fpAdd gamma1 lam)
    let exp_minus := fpExp (fpNeg (fpMul lam (some tau_s)))
    let denom0 := fpSub (some 1) (fpMul (fpMul Gam Gam) (fpMul exp_minus exp_minus))
    let denom := if fpLt (fpAbs denom0) (some 1e-30) then some 1e-30 else denom0
    let r := fpDiv (fpMul Gam (fpSub (some 1) (fpMul exp_minus exp_minus))) denom
    let t := fpDiv (fpMul (fpSub (some 1) (fpMul Gam Gam)) exp_minus) denom
    let C_plus := fpDiv (fpMul omega_s (fpAdd (fpMul (fpSub gamma1 (some (1 / mu0)))
      gamma3) (fpMul gamma4 gamma2)))
      (fpSub (fpMul lam lam) (some (1 / (mu0 * mu0))))
    let C_minus := fpDiv (fpMul omega_s (fpAdd (fpMul (fpAdd gamma1 (some (1 / mu0)))
      gamma4) (fpMul gamma3 gamma2)))
      (fpSub (fpMul lam lam) (some (1 / (mu0 * mu0))))
    (r, t, fpAdd C_plus C_minus)

/-- The scaled optical depth `τ̃` of layer `i` (a plain real). -/
noncomputable def tauScaled (tau omega g : List ℝ) (i : ℕ) : ℝ :=
  (DeltaScale (tau.getD i 0) (omega.getD i 0) (g.getD i 0)).1

/-- The scaled single-scattering albedo `ω̃` of layer `i`. -/
noncomputable def omegaScaled (tau omega g : List ℝ) (i : ℕ) : FP :=
  (DeltaScale (tau.getD i 0) (omega.getD i 0) (g.getD i 0)).2.1

/-- The scaled asymmetry factor `g̃` of layer `i`. -/
noncomputable def gScaled (tau omega g : List ℝ) (i : ℕ) : FP :=
  (DeltaScale (tau.getD i 0) (omega.getD i 0) (g.getD i 0)).2.2

/-- Direct irradiance `k` levels below TOA (Beer–Lambert along the slant
path, level loop of `SolveTwoStream` lines 195-215): start with
`F_TOA · μ₀` at TOA and multiply by `exp(-τ̃ᵢ·eᵢ)` through each layer.
`directFromTop … k` is the value at level `n_layers - k`. -/
noncomputable def directFromTop (tau omega g slant : List ℝ) (mu0 flux_toa : ℝ) : ℕ → FP
  | 0 => some (flux_toa * mu0)
  | k + 1 =>
    fpMul (directFromTop tau omega g slant mu0 flux_toa k)
      (some (Real.exp (-(tauScaled tau omega g (tau.length - 1 - k) *
        slant.getD (tau.length - 1 - k) 0))))

/-- Direct actinic flux `k` levels below TOA: starts at `F_TOA` and passes
through the same per-layer transmittances. -/
noncomputable def actinicDirectFromTop (tau omega g slant : List ℝ) (mu0 flux_toa : ℝ) :
    ℕ → FP
  | 0 => some flux_toa
  | k + 1 =>
    fpMul (actinicDirectFromTop tau omega g slant mu0 flux_toa k)
      (some (Real.exp (-(tauScaled tau omega g (tau.length - 1 - k) *
        slant.getD (tau.length - 1 - k) 0))))

/-- Layer reflectance `r[i]`. -/
noncomputable def layerR (tau omega g : List ℝ) (mu0 : ℝ) (i : ℕ) : FP :=
  (layerCoefficients (tau.getD i 0) (omega.getD i 0) (g.getD i 0) mu0).1

/-- Layer transmittance `t[i]`. -/
noncomputable def layerT (tau omega g : List ℝ) (mu0 : ℝ) (i : ℕ) : FP :=
  (layerCoefficients (tau.getD i 0) (omega.getD i 0) (g.getD i 0) mu0).2.1

/-- Layer source `src[i]` (computed by the code but never read again). -/
noncomputable def layerSrc (tau omega g : List ℝ) (mu0 : ℝ) (i : ℕ) : FP :=
  (layerCoefficients (tau.getD i 0) (omega.getD i 0) (g.getD i 0) mu0).2.2

/-- Upward propagation of diffuse irradiance (lines 280-288), performed
while `diffuse_down` is still its zero initialization:
`up[0] = albedo · (direct[0] + 0)` and `up[i+1] = up[i]·t[i] + r[i]·0`. -/
noncomputable def diffuseUpPre (tau omega g slant : List ℝ) (mu0 albedo flux_toa : ℝ) :
    ℕ → FP
  | 0 =>
    fpMul (some albedo)
      (fpAdd (directFromTop tau omega g slant mu0 flux_toa tau.length) (some 0))
  | i + 1 =>
    fpAdd (fpMul (diffuseUpPre tau omega g slant mu0 albedo flux_toa i)
        (layerT tau omega g mu0 i))
      (fpMul (layerR tau omega g mu0 i) (some 0))

/-- Single-scattering source of layer `i` (lines 291-303):
`ω̃ · (½(direct[i]+direct[i+1])/μ₀) · τ̃`. -/
noncomputable def scatterSource (tau omega g slant : List ℝ) (mu0 flux_toa : ℝ)
    (i : ℕ) : FP :=
  let direct_avg := fpDiv (fpMul (some 0.5)
    (fpAdd (directFromTop tau omega g slant mu0 flux_toa (tau.length - i))
      (directFromTop tau omega g slant mu0 flux_toa (tau.length - (i + 1)))))
    (some mu0)
  fpMul (fpMul (omegaScaled tau omega g i) direct_avg) (some (tauScaled tau omega g i))

/-- Final diffuse-down value at a level: the zero initialization plus the
single-scattering contribution `½·src·(1-g̃)` of the layer above it
(levels 0..n_layers-1; the TOA level receives none). -/
noncomputable def diffuseDownFinal (tau omega g slant : List ℝ) (mu0 flux_toa : ℝ)
    (l : ℕ) : FP :=
  if l < tau.length then
    fpAdd (some 0) (fpMul (fpMul (some 0.5) (scatterSource tau omega g slant mu0 flux_toa l))
      (fpSub (some 1) (gScaled tau omega g l)))
  else some 0

/-- Final diffuse-up value at a level: the surface value is recomputed as
`albedo·(direct[0]/μ₀ + diffuse_down[0])` (line 306); other levels keep the
propagated value plus the `½·src·(1+g̃)` contribution of the layer below. -/
noncomputable def diffuseUpFinal (tau omega g slant : List ℝ) (mu0 albedo flux_toa : ℝ)
    (l : ℕ) : FP :=
  if l = 0 then
    fpMul (some albedo)
      (fpAdd (fpDiv (directFromTop tau omega g slant mu0 flux_toa tau.length) (some mu0))
        (diffuseDownFinal tau omega g slant mu0 flux_toa 0))
  else
    fpAdd (diffuseUpPre tau omega g slant mu0 albedo flux_toa l)
      (fpMul (fpMul (some 0.5) (scatterSource tau omega g slant mu0 flux_toa (l - 1)))
        (fpAdd (some 1) (gScaled tau omega g (l - 1))))

/-- Results of `SolveTwoStream` for one wavelength: five per-level arrays. -/
structure TwoStreamResult where
  direct : List FP
  diffuse_down : List FP
  diffuse_up : List FP
  actinic_direct : List FP
  actinic_diffuse : List FP

/-- `DeltaEddingtonSolver::SolveTwoStream` for one wavelength column. -/
noncomputable def SolveTwoStream (tau omega g : List ℝ) (mu0 albedo flux_toa : ℝ)
    (slant : List ℝ) : TwoStreamResult :=
  let n_layers := tau.length
  let n_levels := n_layers + 1
  { direct := (List.range n_levels).map fun l =>
      directFromTop tau omega g slant mu0 flux_toa (n_layers - l)
    diffuse_down := (List.range n_levels).map fun l =>
      diffuseDownFinal tau omega g slant mu0 flux_toa l
    diffuse_up := (List.range n_levels).map fun l =>
      diffuseUpFinal tau omega g slant mu0 albedo flux_toa l
    actinic_direct := (List.range n_levels).map fun l =>
      actinicDirectFromTop tau omega g slant mu0 flux_toa (n_layers - l)
    actinic_diffuse := (List.range n_levels).map fun l =>
      fpMul (some 2) (fpAdd (diffuseUpFinal tau omega g slant mu0 albedo flux_toa l)
        (diffuseDownFinal tau omega g slant mu0 flux_toa l)) }

/-- `SolverInput` (`src/include/tuvx/solver/solver.hpp`): optional radiator
state, optional slant geometry (only its enhancement factors are read),
optional surface albedo and TOA flux spectra, and the solar zenith angle. -/
structure SolverInput where
  radiator_state : Option RadiatorState
  geometry : Option (List ℝ)
  surface_albedo : Option (List ℝ)
  extraterrestrial_flux : Option (List ℝ)
  solar_zenith_angle : ℝ

/-- `SolverInput::mu0() = cos(χ · kDegreesToRadians)`. -/
noncomputable def SolverInput.mu0 (input : SolverInput) : ℝ :=
  Real.cos (input.solar_zenith_angle * kDegreesToRadians)

/-- Column `j` of a `[n_layers][n_wavelengths]` array. -/
def colOf (a : List (List ℝ)) (j : ℕ) : List ℝ := a.map fun row => row.getD j 0

/-- `DeltaEddingtonSolver::Solve`: empty field for null/empty input state;
zero-initialized field at night (`μ₀ ≤ 0`); otherwise per-wavelength
two-stream solutions assembled into the level-by-wavelength arrays. -/
noncomputable def DeltaEddingtonSolve (input : SolverInput) : RadiationField :=
  match input.radiator_state with
  | none => ⟨[], [], [], [], []⟩
  | some s =>
    if s.Empty then ⟨[], [], [], [], []⟩
    else
      let n_layers := s.NumberOfLayers
      let n_wavelengths := s.NumberOfWavelengths
      let n_levels := n_layers + 1
      let mu0 := input.mu0
      if mu0 ≤ 0 then RadiationField.Initialize n_levels n_wavelengths
      else
        let slant_factors :=
          match input.geometry with
          | none => List.replicate n_layers (1 / mu0)
          | some e => e
        let solveAt := fun j =>
          let albedo :=
            match input.surface_albedo with
            | none => 0
            | some a => if j < a.length then a.getD j 0 else 0
          let flux_toa :=
            match input.extraterrestrial_flux with
            | none => 1
            | some fl => if j < fl.length then fl.getD j 0 else 1
          SolveTwoStream (colOf s.optical_depth j) (colOf s.single_scattering_albedo j)
            (colOf s.asymmetry_factor j) mu0 albedo flux_toa slant_factors
        { direct_irradiance := (List.range n_levels).map fun i =>
            (List.range n_wavelengths).map fun j => (solveAt j).direct.getD i none
          diffuse_up := (List.range n_levels).map fun i =>
            (List.range n_wavelengths).map fun j => (solveAt j).diffuse_up.getD i none
          diffuse_down := (List.range n_levels).map fun i =>
            (List.range n_wavelengths).map fun j => (solveAt j).diffuse_down.getD i none
          actinic_flux_direct := (List.range n_levels).map fun i =>
            (List.range n_wavelengths).map fun j => (solveAt j).actinic_direct.getD i none
          actinic_flux_diffuse := (List.range n_levels).map fun i =>
            (List.range n_wavelengths).map fun j => (solveAt j).actinic_diffuse.getD i none }

theorem idxF_replicate_zero {L W i j : ℕ} (hi : i < L) (hj : j < W) :
    idxF (List.replicate L (List.replicate W (some 0))) i j = some 0 := by
  unfold idxF
  have h1 : (List.replicate L (List.replicate W (some (0:ℝ)))).getD i []
      = List.replicate W (some (0:ℝ)) := by
    rw [List.getD_eq_getElem _ _ (by simpa using hi), List.getElem_replicate]
  rw [h1, List.getD_eq_getElem _ _ (by simpa using hj), List.getElem_replicate]

/-- C7: `DeltaEddingtonSolver::Solve` returns an empty `RadiationField` when
the radiator state is null or empty, and the zero-initialized field of shape
`[n_layers+1][n_wavelengths]` (every entry exactly 0) when `μ₀ ≤ 0`. -/
theorem deltaEddington_night_and_empty (input : SolverInput) :
    (input.radiator_state = none →
      DeltaEddingtonSolve input = ⟨[], [], [], [], []⟩) ∧
    (∀ s, input.radiator_state = some s → s.Empty = true →
      DeltaEddingtonSolve input = ⟨[], [], [], [], []⟩) ∧
    (∀ s, input.radiator_state = some s → s.Empty = false → input.mu0 ≤ 0 →
      DeltaEddingtonSolve input
        = RadiationField.Initialize (s.NumberOfLayers + 1) s.NumberOfWavelengths ∧
      ∀ i < s.NumberOfLayers + 1, ∀ j < s.NumberOfWavelengths,
        idxF (DeltaEddingtonSolve input).direct_irradiance i j = some 0 ∧
        idxF (DeltaEddingtonSolve input).diffuse_up i j = some 0 ∧
        idxF (DeltaEddingtonSolve input).diffuse_down i j = some 0 ∧
        idxF (DeltaEddingtonSolve input).actinic_flux_direct i j = some 0 ∧
        idxF (DeltaEddingtonSolve input).actinic_flux_diffuse i j = some 0) := by
  refine ⟨?_, ?_, ?_⟩
  · intro h
    unfold DeltaEddingtonSolve
    rw [h]
  · intro s hs hemp
    unfold DeltaEddingtonSolve
    rw [hs]
    simp only [hemp, if_pos]
  · intro s hs hemp hmu
    have hfield : DeltaEddingtonSolve input
        = RadiationField.Initialize (s.NumberOfLayers + 1) s.NumberOfWavelengths := by
      unfold DeltaEddingtonSolve
      rw [hs]
      simp only [hemp, Bool.false_eq_true, if_false, if_pos hmu]
    refine ⟨hfield, ?_⟩
    intro i hi j hj
    rw [hfield]
    exact ⟨idxF_replicate_zero hi hj, idxF_replicate_zero hi hj,
      idxF_replicate_zero hi hj, idxF_replicate_zero hi hj, idxF_replicate_zero hi hj⟩

theorem mu0_nonpos_at_180 :
    (SolverInput.mk (some ⟨[[1]], [[0]], [[0]]⟩) none none none 180).mu0 ≤ 0 := by
  unfold SolverInput.mu0 kDegreesToRadians kPi
  rw [show (180 : ℝ) * (3.14159265358979323846 / 180) = 3.14159265358979323846 by ring]
  apply Real.cos_nonpos_of_pi_div_two_le_of_le
  · have h := Real.pi_lt_d2
    linarith
  · have h := Real.pi_gt_d6
    linarith

/-- Witness for C7: at χ = 180° the solver returns the zero-initialized
2-level, 1-wavelength field for a 1-layer state. -/
theorem deltaEddington_night_and_empty_witness :
    DeltaEddingtonSolve (SolverInput.mk (some ⟨[[1]], [[0]], [[0]]⟩) none none none 180)
      = RadiationField.Initialize 2 1 :=
  ((deltaEddington_night_and_empty
      (SolverInput.mk (some ⟨[[1]], [[0]], [[0]]⟩) none none none 180)).2.2
    ⟨[[1]], [[0]], [[0]]⟩ rfl rfl mu0_nonpos_at_180).1

/-- `γ₁ = (7 - ω̃(4 + 3g̃))/4` as a real formula. -/
noncomputable def gamma1R (ws gs : ℝ) : ℝ := (7 - ws * (4 + 3 * gs)) / 4

/-- `γ₂ = -(1 - ω̃(4 - 3g̃))/4` as a real formula. -/
noncomputable def gamma2R (ws gs : ℝ) : ℝ := -(1 - ws * (4 - 3 * gs)) / 4

/-- `γ₃ = (2 - 3g̃μ₀)/4` as a real formula. -/
noncomputable def gamma3R (gs mu0 : ℝ) : ℝ := (2 - 3 * gs * mu0) / 4

/-- `γ₄ = 1 - γ₃` as a real formula. -/
noncomputable def gamma4R (gs mu0 : ℝ) : ℝ := 1 - gamma3R gs mu0

/-- `λ = √(γ₁² - γ₂²)` as a real formula. -/
noncomputable def lambdaR (ws gs : ℝ) : ℝ :=
  Real.sqrt (gamma1R ws gs * gamma1R ws gs - gamma2R ws gs * gamma2R ws gs)

/-- The layer source term `C₊ + C₋` as the code computes it: the `C₋`
coefficient carries `γ₄` on the `(γ₁ + 1/μ₀)` factor and `γ₃·γ₂` as the
additive term. -/
noncomputable def codeSource (ws gs mu0 : ℝ) : ℝ :=
  ws * ((gamma1R ws gs - 1 / mu0) * gamma3R gs mu0 + gamma4R gs mu0 * gamma2R ws gs) /
      (lambdaR ws gs * lambdaR ws gs - 1 / (mu0 * mu0)) +
    ws * ((gamma1R ws gs + 1 / mu0) * gamma4R gs mu0 + gamma3R gs mu0 * gamma2R ws gs) /
      (lambdaR ws gs * lambdaR ws gs - 1 / (mu0 * mu0))

/-- The layer source term `C₊ + C₋` as the claim states it: both
coefficients use `γ₃` on the `(γ₁ ∓ 1/μ₀)` factor and `γ₄·γ₂` as the
additive term. -/
noncomputable def specSource (ws gs mu0 : ℝ) : ℝ :=
  ws * ((gamma1R ws gs - 1 / mu0) * gamma3R gs mu0 + gamma4R gs mu0 * gamma2R ws gs) /
      (lambdaR ws gs * lambdaR ws gs - 1 / (mu0 * mu0)) +
    ws * ((gamma1R ws gs + 1 / mu0) * gamma3R gs mu0 + gamma4R gs mu0 * gamma2R ws gs) /
      (lambdaR ws gs * lambdaR ws gs - 1 / (mu0 * mu0))

theorem layerCoefficients_src_eval (tau omega g mu0 ts ws gs : ℝ)
    (hscale : DeltaScale tau omega g = (ts, some ws, some gs))
    (hts : 1e-10 ≤ ts) (hws : 1e-10 ≤ ws) (hws1 : ws ≤ 1)
    (_hgs : -1 ≤ gs) (hgs1 : gs ≤ 1) (_hmu0 : 0 < mu0)
    (hden : lambdaR ws gs * lambdaR ws gs - 1 / (mu0 * mu0) ≠ 0) :
    (layerCoefficients tau omega g mu0).2.2 = some (codeSource ws gs mu0) := by
  have hwsgs : ws * gs ≤ 1 := by nlinarith
  have hg1 : gamma2R ws gs ≤ gamma1R ws gs := by
    unfold gamma1R gamma2R
    linarith
  have hg2 : -(gamma1R ws gs) ≤ gamma2R ws gs := by
    unfold gamma1R gamma2R
    linarith
  have hsq : 0 ≤ gamma1R ws gs * gamma1R ws gs - gamma2R ws gs * gamma2R ws gs := by
    nlinarith [mul_nonneg (by linarith : (0:ℝ) ≤ gamma1R ws gs - gamma2R ws gs)
      (by linarith : (0:ℝ) ≤ gamma1R ws gs + gamma2R ws gs)]
  unfold layerCoefficients
  rw [hscale]
  simp only
  rw [if_neg (by
    push_neg
    exact ⟨hts, by simp only [fpLt_some_some, not_lt]; exact hws⟩)]
  simp only [fpMul_some, fpAdd_some, fpSub_some, fpNeg_some]
  rw [fpDiv_some_of_ne (7 - ws * (4 + 3 * gs)) 4 (by norm_num),
    fpDiv_some_of_ne (-(1 - ws * (4 - 3 * gs))) 4 (by norm_num),
    fpDiv_some_of_ne (2 - 3 * gs * mu0) 4 (by norm_num)]
  simp only [fpMul_some, fpAdd_some, fpSub_some]
  rw [show (7 - ws * (4 + 3 * gs)) / 4 = gamma1R ws gs from rfl,
    show -(1 - ws * (4 - 3 * gs)) / 4 = gamma2R ws gs from rfl,
    show (2 - 3 * gs * mu0) / 4 = gamma3R gs mu0 from rfl]
  rw [fpSqrt_some_of_nonneg _ hsq]
  rw [show Real.sqrt (gamma1R ws gs * gamma1R ws gs - gamma2R ws gs * gamma2R ws gs)
    = lambdaR ws gs from rfl]
  simp only [fpMul_some, fpAdd_some, fpSub_some]
  rw [fpDiv_some_of_ne
    (ws * ((gamma1R ws gs - 1 / mu0) * gamma3R gs mu0 + (1 - gamma3R gs mu0) *
      gamma2R ws gs)) _ hden,
    fpDiv_some_of_ne
    (ws * ((gamma1R ws gs + 1 / mu0) * (1 - gamma3R gs mu0) + gamma3R gs mu0 *
      gamma2R ws gs)) _ hden]
  simp only [fpAdd_some]
  rw [Option.some_inj]
  unfold codeSource gamma4R
  ring

theorem deltaScale_concrete :
    DeltaScale (10 / 9) (2 / 5) (1 / 2) = (1, some (1 / 3), some (1 / 3)) := by
  unfold DeltaScale
  norm_num [fpDiv, fpClamp, rclamp]

theorem lambdaR_concrete : lambdaR (1 / 3) (1 / 3) = 4 / 3 := by
  unfold lambdaR gamma1R gamma2R
  rw [show ((7 - 1 / 3 * (4 + 3 * (1 / 3))) / 4 * ((7 - 1 / 3 * (4 + 3 * (1 / 3))) / 4) -
      -(1 - 1 / 3 * (4 - 3 * (1 / 3))) / 4 * (-(1 - 1 / 3 * (4 - 3 * (1 / 3))) / 4) : ℝ)
    = (4 / 3) ^ 2 by norm_num]
  exact Real.sqrt_sq (by norm_num)

/-- C1 counterexample: at the layer `(τ, ω, g) = (10/9, 2/5, 1/2)` with
`μ₀ = 1` (scaled values `τ̃ = 1`, `ω̃ = g̃ = 1/3`), the source term computed
by the code is `11/14`, not the `2/7` demanded by the claimed `C₋` formula. -/
theorem layer_source_formula_counterexample :
    (layerCoefficients (10 / 9) (2 / 5) (1 / 2) 1).2.2 ≠
      some (specSource (1 / 3) (1 / 3) 1) := by
  have hden : lambdaR (1 / 3) (1 / 3) * lambdaR (1 / 3) (1 / 3) - 1 / ((1:ℝ) * 1) ≠ 0 := by
    rw [lambdaR_concrete]
    norm_num
  rw [layerCoefficients_src_eval (10 / 9) (2 / 5) (1 / 2) 1 1 (1 / 3) (1 / 3)
    deltaScale_concrete (by norm_num) (by norm_num) (by norm_num) (by norm_num)
    (by norm_num) (by norm_num) hden]
  rw [Ne, Option.some_inj]
  norm_num [codeSource, specSource, gamma1R, gamma2R, gamma3R, gamma4R, lambdaR_concrete]

/-- C1 amended: for non-degenerate layers the source term is `C₊ + C₋` with
`C₊ = ω̃((γ₁ - 1/μ₀)γ₃ + γ₄γ₂)/(λ² - 1/μ₀²)` as claimed, but
`C₋ = ω̃((γ₁ + 1/μ₀)γ₄ + γ₃γ₂)/(λ² - 1/μ₀²)` — the `C₋` coefficient uses
`γ₄` on the `(γ₁ + 1/μ₀)` factor and `γ₃·γ₂` as the additive term. -/
theorem layer_source_term_spec (tau omega g mu0 ts ws gs : ℝ)
    (hscale : DeltaScale tau omega g = (ts, some ws, some gs))
    (hts : 1e-10 ≤ ts) (hws : 1e-10 ≤ ws) (hws1 : ws ≤ 1)
    (hgs : -1 ≤ gs) (hgs1 : gs ≤ 1) (hmu0 : 0 < mu0)
    (hden : lambdaR ws gs * lambdaR ws gs - 1 / (mu0 * mu0) ≠ 0) :
    (layerCoefficients tau omega g mu0).2.2 = some (codeSource ws gs mu0) :=
  layerCoefficients_src_eval tau omega g mu0 ts ws gs hscale hts hws hws1 hgs hgs1
    hmu0 hden

/-- Witness for C1: the amended formula evaluated at the concrete layer of
the counterexample. -/
theorem layer_source_term_spec_witness :
    (layerCoefficients (10 / 9) (2 / 5) (1 / 2) 1).2.2 =
      some (codeSource (1 / 3) (1 / 3) 1) :=
  layer_source_term_spec (10 / 9) (2 / 5) (1 / 2) 1 1 (1 / 3) (1 / 3)
    deltaScale_concrete (by norm_num) (by norm_num) (by norm_num) (by norm_num)
    (by norm_num) (by norm_num)
    (by rw [lambdaR_concrete]; norm_num)

theorem rclamp_le (v lo hi c : ℝ) (hv : v ≤ c) (hlo : lo ≤ c) : rclamp v lo hi ≤ c := by
  unfold rclamp
  by_cases h1 : v < lo
  · rw [if_pos h1]
    exact hlo
  · rw [if_neg h1]
    by_cases h2 : hi < v
    · rw [if_pos h2]
      linarith
    · rw [if_neg h2]
      exact hv

/-- Delta-M scaling at `0 ≤ τ`, `0 ≤ ω ≤ 1` and `|g| < 1`: `τ̃ ≥ 0`, `ω̃` is
a finite value in `[0, 1]`, and `g̃` is a finite value in `[-1, 1/2]`. -/
theorem deltaScale_props (tau omega g : ℝ) (htau : 0 ≤ tau) (hom : 0 ≤ omega)
    (hom1 : omega ≤ 1) (hg : |g| < 1) :
    0 ≤ (DeltaScale tau omega g).1 ∧
    (∃ w, (DeltaScale tau omega g).2.1 = some w ∧ 0 ≤ w ∧ w ≤ 1) ∧
    (∃ gv, (DeltaScale tau omega g).2.2 = some gv ∧ -1 ≤ gv ∧ gv ≤ 1 / 2) := by
  obtain ⟨hg1, hg2⟩ := abs_lt.mp hg
  have hf1 : g * g < 1 := by nlinarith
  have hf0 : 0 ≤ g * g := mul_self_nonneg g
  have homf : omega * (g * g) < 1 := by nlinarith
  have homf0 : 0 ≤ omega * (g * g) := mul_nonneg hom hf0
  have hden1 : (0:ℝ) < 1 - omega * (g * g) := by linarith
  have hden2 : (0:ℝ) < 1 - g * g := by linarith
  simp only [DeltaScale]
  refine ⟨mul_nonneg htau (by linarith), ?_, ?_⟩
  · rw [fpDiv_some_of_ne _ _ (ne_of_gt hden1)]
    simp only [fpClamp_some]
    exact ⟨_, rfl, (rclamp_mem _ 0 1 (by norm_num)).1, (rclamp_mem _ 0 1 (by norm_num)).2⟩
  · rw [fpDiv_some_of_ne _ _ (ne_of_gt hden2)]
    simp only [fpClamp_some]
    refine ⟨_, rfl, (rclamp_mem _ (-1) 1 (by norm_num)).1, ?_⟩
    apply rclamp_le _ _ _ _ ?_ (by norm_num)
    rw [div_le_iff₀ hden2]
    nlinarith [sq_nonneg (1 - g)]

set_option maxHeartbeats 1000000 in
/-- Non-degenerate or degenerate, `layerCoefficients` yields a finite layer
reflectance and a finite nonnegative layer transmittance. -/
theorem layerCoefficients_rt (tau omega g mu0 : ℝ) (htau : 0 ≤ tau) (hom : 0 ≤ omega)
    (hom1 : omega ≤ 1) (hg : |g| < 1) (_hmu : 0 < mu0) :
    (∃ r, (layerCoefficients tau omega g mu0).1 = some r) ∧
    (∃ t, (layerCoefficients tau omega g mu0).2.1 = some t ∧ 0 ≤ t) := by
  obtain ⟨htS, ⟨w, hw, hw0, hw1⟩, ⟨gv, hgv, hgv1, hgvh⟩⟩ :=
    deltaScale_props tau omega g htau hom hom1 hg
  have hscale : DeltaScale tau omega g = ((DeltaScale tau omega g).1, some w, some gv) := by
    rw [← hw, ← hgv]
  unfold layerCoefficients
  rw [hscale]
  simp only
  by_cases hcase : (DeltaScale tau omega g).1 < 1e-10 ∨ fpLt (some w) (some 1e-10)
  · rw [if_pos hcase]
    exact ⟨⟨0, rfl⟩, ⟨Real.exp _, rfl, (Real.exp_pos _).le⟩⟩
  · rw [if_neg hcase]
    push_neg at hcase
    obtain ⟨hts2, hw2⟩ := hcase
    simp only [fpLt_some_some, not_lt] at hw2
    have hwgv : w * gv ≤ 1 := by nlinarith
    simp only [fpMul_some, fpAdd_some, fpSub_some, fpNeg_some]
    rw [fpDiv_some_of_ne (7 - w * (4 + 3 * gv)) 4 (by norm_num),
      fpDiv_some_of_ne (-(1 - w * (4 - 3 * gv))) 4 (by norm_num)]
    simp only [fpMul_some, fpSub_some]
    set ts := (DeltaScale tau omega g).1 with hts_def
    set γ1 := (7 - w * (4 + 3 * gv)) / 4 with hγ1
    set γ2 := -(1 - w * (4 - 3 * gv)) / 4 with hγ2
    have hγ1lb : 3 / 8 ≤ γ1 := by rw [hγ1]; nlinarith
    have hγ2ub : γ2 ≤ γ1 := by rw [hγ1, hγ2]; nlinarith
    have hγ2lb : -γ1 ≤ γ2 := by rw [hγ1, hγ2]; nlinarith
    have hsqnn : 0 ≤ γ1 * γ1 - γ2 * γ2 := by
      nlinarith [mul_nonneg (by linarith : (0:ℝ) ≤ γ1 - γ2)
        (by linarith : (0:ℝ) ≤ γ1 + γ2)]
    rw [fpSqrt_some_of_nonneg _ hsqnn]
    set lam := Real.sqrt (γ1 * γ1 - γ2 * γ2) with hlamdef
    have hlam0 : 0 ≤ lam := Real.sqrt_nonneg _
    have hdenne : γ1 + lam ≠ 0 := ne_of_gt (by linarith)
    simp only [fpAdd_some]
    rw [fpDiv_some_of_ne γ2 (γ1 + lam) hdenne]
    simp only [fpMul_some, fpAdd_some, fpSub_some, fpNeg_some, fpExp_some, fpAbs_some]
    set Γv := γ2 / (γ1 + lam) with hΓdef
    have hΓsq : Γv * Γv ≤ 1 := by
      rw [hΓdef, div_mul_div_comm]
      have h1 : γ2 * γ2 ≤ (γ1 + lam) * (γ1 + lam) := by nlinarith
      exact div_le_one_of_le₀ h1 (by nlinarith)
    have hΓsq0 : 0 ≤ Γv * Γv := mul_self_nonneg Γv
    set ev := Real.exp (-(lam * ts)) with hev
    have hev0 : 0 < ev := Real.exp_pos _
    have hev1 : ev ≤ 1 := by
      rw [hev]
      calc Real.exp (-(lam * ts)) ≤ Real.exp 0 :=
            Real.exp_le_exp.mpr (by nlinarith)
        _ = 1 := Real.exp_zero
    have hd0 : 0 ≤ 1 - Γv * Γv * (ev * ev) := by
      nlinarith [mul_nonneg hΓsq0 (by nlinarith : (0:ℝ) ≤ 1 - ev * ev)]
    simp only [fpLt_some_some]
    obtain ⟨d, hdeq, hdpos⟩ : ∃ d,
        (if |1 - Γv * Γv * (ev * ev)| < 1e-30 then (some 1e-30 : FP)
          else some (1 - Γv * Γv * (ev * ev))) = some d ∧ 0 < d := by
      by_cases hsmall : |1 - Γv * Γv * (ev * ev)| < 1e-30
      · exact ⟨1e-30, if_pos hsmall, by norm_num⟩
      · refine ⟨1 - Γv * Γv * (ev * ev), if_neg hsmall, ?_⟩
        rw [not_lt, abs_of_nonneg hd0] at hsmall
        linarith
    rw [hdeq]
    rw [fpDiv_some_of_ne (Γv * (1 - ev * ev)) d (ne_of_gt hdpos),
      fpDiv_some_of_ne ((1 - Γv * Γv) * ev) d (ne_of_gt hdpos)]
    exact ⟨⟨_, rfl⟩, ⟨_, rfl,
      div_nonneg (mul_nonneg (by linarith) hev0.le) hdpos.le⟩⟩

/-- The per-layer input ranges of C2 for one wavelength column
(`τ ≥ 0`, `0 ≤ ω ≤ 1`, `|g| < 1`). -/
def ColumnOK (tau omega g : List ℝ) : Prop :=
  (∀ i < tau.length, 0 ≤ tau.getD i 0) ∧
  (∀ i < tau.length, 0 ≤ omega.getD i 0 ∧ omega.getD i 0 ≤ 1) ∧
  (∀ i < tau.length, |g.getD i 0| < 1)

theorem directFromTop_NN (tau omega g slant : List ℝ) (mu0 flux : ℝ)
    (hmu : 0 < mu0) (hflux : 0 ≤ flux) :
    ∀ k, fpNN (directFromTop tau omega g slant mu0 flux k) := by
  intro k
  induction k with
  | zero => exact fpNN_some (mul_nonneg hflux hmu.le)
  | succ k ih => exact fpNN_mul ih (fpNN_some (Real.exp_pos _).le)

theorem actinicDirectFromTop_NN (tau omega g slant : List ℝ) (mu0 flux : ℝ)
    (hflux : 0 ≤ flux) :
    ∀ k, fpNN (actinicDirectFromTop tau omega g slant mu0 flux k) := by
  intro k
  induction k with
  | zero => exact fpNN_some hflux
  | succ k ih => exact fpNN_mul ih (fpNN_some (Real.exp_pos _).le)

theorem diffuseUpPre_NN (tau omega g slant : List ℝ) (mu0 albedo flux : ℝ)
    (hmu : 0 < mu0) (halb : 0 ≤ albedo) (hflux : 0 ≤ flux)
    (hcol : ColumnOK tau omega g) :
    ∀ l, l ≤ tau.length →
      fpNN (diffuseUpPre tau omega g slant mu0 albedo flux l) := by
  intro l
  induction l with
  | zero =>
    intro _
    exact fpNN_mul (fpNN_some halb)
      (fpNN_add (directFromTop_NN tau omega g slant mu0 flux hmu hflux _) fpNN_zero)
  | succ l ih =>
    intro hle
    have hl : l < tau.length := by omega
    obtain ⟨⟨r, hr⟩, ⟨t, ht, ht0⟩⟩ := layerCoefficients_rt (tau.getD l 0)
      (omega.getD l 0) (g.getD l 0) mu0 (hcol.1 l hl) (hcol.2.1 l hl).1
      (hcol.2.1 l hl).2 (hcol.2.2 l hl) hmu
    show fpNN (fpAdd (fpMul (diffuseUpPre tau omega g slant mu0 albedo flux l)
      (layerT tau omega g mu0 l)) (fpMul (layerR tau omega g mu0 l) (some 0)))
    rw [show layerT tau omega g mu0 l = some t from ht,
      show layerR tau omega g mu0 l = some r from hr]
    apply fpNN_add
    · exact fpNN_mul (ih (by omega)) ⟨t, rfl, ht0⟩
    · exact ⟨r * 0, rfl, by simp⟩

theorem scatterSource_NN (tau omega g slant : List ℝ) (mu0 flux : ℝ)
    (hmu : 0 < mu0) (hflux : 0 ≤ flux) (hcol : ColumnOK tau omega g)
    {i : ℕ} (hi : i < tau.length) :
    fpNN (scatterSource tau omega g slant mu0 flux i) := by
  obtain ⟨hτ, ⟨w, hw, hw0, _⟩, _⟩ := deltaScale_props (tau.getD i 0) (omega.getD i 0)
    (g.getD i 0) (hcol.1 i hi) (hcol.2.1 i hi).1 (hcol.2.1 i hi).2 (hcol.2.2 i hi)
  unfold scatterSource
  apply fpNN_mul
  · apply fpNN_mul
    · unfold omegaScaled
      rw [hw]
      exact ⟨w, rfl, hw0⟩
    · refine fpNN_div ?_ rfl hmu
      exact fpNN_mul (fpNN_some (by norm_num))
        (fpNN_add (directFromTop_NN tau omega g slant mu0 flux hmu hflux _)
          (directFromTop_NN tau omega g slant mu0 flux hmu hflux _))
  · unfold tauScaled
    exact fpNN_some hτ

theorem diffuseDownFinal_NN (tau omega g slant : List ℝ) (mu0 flux : ℝ)
    (hmu : 0 < mu0) (hflux : 0 ≤ flux) (hcol : ColumnOK tau omega g) (l : ℕ) :
    fpNN (diffuseDownFinal tau omega g slant mu0 flux l) := by
  unfold diffuseDownFinal
  by_cases hl : l < tau.length
  · rw [if_pos hl]
    obtain ⟨_, _, ⟨gv, hgv, hgv1, hgvh⟩⟩ := deltaScale_props (tau.getD l 0)
      (omega.getD l 0) (g.getD l 0) (hcol.1 l hl) (hcol.2.1 l hl).1
      (hcol.2.1 l hl).2 (hcol.2.2 l hl)
    apply fpNN_add fpNN_zero
    apply fpNN_mul
    · exact fpNN_mul (fpNN_some (by norm_num))
        (scatterSource_NN tau omega g slant mu0 flux hmu hflux hcol hl)
    · unfold gScaled
      rw [hgv]
      exact ⟨1 - gv, rfl, by linarith⟩
  · rw [if_neg hl]
    exact fpNN_zero

theorem diffuseUpFinal_NN (tau omega g slant : List ℝ) (mu0 albedo flux : ℝ)
    (hmu : 0 < mu0) (halb : 0 ≤ albedo) (hflux : 0 ≤ flux)
    (hcol : ColumnOK tau omega g) {l : ℕ} (hl : l ≤ tau.length) :
    fpNN (diffuseUpFinal tau omega g slant mu0 albedo flux l) := by
  unfold diffuseUpFinal
  by_cases h0 : l = 0
  · rw [if_pos h0]
    apply fpNN_mul (fpNN_some halb)
    apply fpNN_add
    · exact fpNN_div (directFromTop_NN tau omega g slant mu0 flux hmu hflux _) rfl hmu
    · exact diffuseDownFinal_NN tau omega g slant mu0 flux hmu hflux hcol 0
  · rw [if_neg h0]
    have hl1 : l - 1 < tau.length := by omega
    obtain ⟨_, _, ⟨gv, hgv, hgv1, hgvh⟩⟩ := deltaScale_props (tau.getD (l - 1) 0)
      (omega.getD (l - 1) 0) (g.getD (l - 1) 0) (hcol.1 _ hl1) (hcol.2.1 _ hl1).1
      (hcol.2.1 _ hl1).2 (hcol.2.2 _ hl1)
    apply fpNN_add
    · exact diffuseUpPre_NN tau omega g slant mu0 albedo flux hmu halb hflux hcol l hl
    · apply fpNN_mul
      · exact fpNN_mul (fpNN_some (by norm_num))
          (scatterSource_NN tau omega g slant mu0 flux hmu hflux hcol hl1)
      · unfold gScaled
        rw [hgv]
        exact ⟨1 + gv, rfl, by linarith⟩

/-- No entry of any of the five per-level arrays of `SolveTwoStream` is NaN
or negative when `μ₀ > 0`, `albedo ≥ 0`, `F_TOA ≥ 0` and the layer column
satisfies `τ ≥ 0`, `0 ≤ ω ≤ 1`, `|g| < 1`. -/
theorem solveTwoStream_NN (tau omega g slant : List ℝ) (mu0 albedo flux : ℝ)
    (hmu : 0 < mu0) (halb : 0 ≤ albedo) (hflux : 0 ≤ flux)
    (hcol : ColumnOK tau omega g) :
    ∀ l < tau.length + 1,
      fpNN ((SolveTwoStream tau omega g mu0 albedo flux slant).direct.getD l none) ∧
      fpNN ((SolveTwoStream tau omega g mu0 albedo flux slant).diffuse_down.getD l none) ∧
      fpNN ((SolveTwoStream tau omega g mu0 albedo flux slant).diffuse_up.getD l none) ∧
      fpNN ((SolveTwoStream tau omega g mu0 albedo flux slant).actinic_direct.getD l none) ∧
      fpNN ((SolveTwoStream tau omega g mu0 albedo flux slant).actinic_diffuse.getD l none) := by
  intro l hl
  unfold SolveTwoStream
  simp only
  rw [list_range_map_getD_poly none _ _ hl, list_range_map_getD_poly none _ _ hl,
    list_range_map_getD_poly none _ _ hl, list_range_map_getD_poly none _ _ hl,
    list_range_map_getD_poly none _ _ hl]
  have hup := diffuseUpFinal_NN tau omega g slant mu0 albedo flux hmu halb hflux hcol
    (show l ≤ tau.length by omega)
  have hdown := diffuseDownFinal_NN tau omega g slant mu0 flux hmu hflux hcol l
  exact ⟨directFromTop_NN tau omega g slant mu0 flux hmu hflux _, hdown, hup,
    actinicDirectFromTop_NN tau omega g slant mu0 flux hflux _,
    fpNN_mul (fpNN_some (by norm_num)) (fpNN_add hup hdown)⟩

theorem colOf_getD (a : List (List ℝ)) (j : ℕ) {i : ℕ} (hi : i < a.length) :
    (colOf a j).getD i 0 = idx2 a i j := by
  unfold colOf idx2
  have h1 : (a.map fun row => row.getD j 0).getD i 0 = (a[i]).getD j 0 := by
    rw [List.getD_eq_getElem _ _ (by simpa using hi), List.getElem_map]
  rw [h1, List.getD_eq_getElem a _ hi]

theorem idxF_map_map {L W : ℕ} (f : ℕ → ℕ → FP) {i j : ℕ} (hi : i < L) (hj : j < W) :
    idxF ((List.range L).map fun i => (List.range W).map fun j => f i j) i j = f i j := by
  unfold idxF
  have h1 : ((List.range L).map fun i => (List.range W).map fun j => f i j).getD i []
      = (List.range W).map fun j => f i j := by
    rw [List.getD_eq_getElem _ _ (by simpa using hi), List.getElem_map, List.getElem_range]
  rw [h1, List.getD_eq_getElem _ _ (by simpa using hj), List.getElem_map,
    List.getElem_range]

set_option maxHeartbeats 1000000 in
/-- C2 amended: with at least one layer, `μ₀ > 0`, nonnegative TOA flux,
albedo in `[0, 1]`, `τ ≥ 0`, `0 ≤ ω ≤ 1` and `|g| < 1` STRICTLY,
`DeltaEddingtonSolver::Solve` produces no NaN and no negative value in any
of the five output arrays.  At the boundary `|g| = 1` the claim fails: the
delta scaling computes `0/0` (see the counterexample). -/
theorem deltaEddington_no_nan_nonneg (input : SolverInput) (s : RadiatorState)
    (n m : ℕ) (hstate : input.radiator_state = some s) (hshape : s.Shaped n m)
    (hn : 0 < n) (hmu : 0 < input.mu0)
    (halbedo : ∀ a, input.surface_albedo = some a → ∀ x ∈ a, 0 ≤ x ∧ x ≤ 1)
    (hflux : ∀ fl, input.extraterrestrial_flux = some fl → ∀ x ∈ fl, 0 ≤ x)
    (htau : ∀ i < n, ∀ j < m, 0 ≤ idx2 s.optical_depth i j)
    (homega : ∀ i < n, ∀ j < m, 0 ≤ idx2 s.single_scattering_albedo i j ∧
      idx2 s.single_scattering_albedo i j ≤ 1)
    (hasym : ∀ i < n, ∀ j < m, |idx2 s.asymmetry_factor i j| < 1) :
    ∀ i < n + 1, ∀ j < m,
      fpNN (idxF (DeltaEddingtonSolve input).direct_irradiance i j) ∧
      fpNN (idxF (DeltaEddingtonSolve input).diffuse_up i j) ∧
      fpNN (idxF (DeltaEddingtonSolve input).diffuse_down i j) ∧
      fpNN (idxF (DeltaEddingtonSolve input).actinic_flux_direct i j) ∧
      fpNN (idxF (DeltaEddingtonSolve input).actinic_flux_diffuse i j) := by
  have hemp : s.Empty = false := by
    rcases Bool.eq_false_or_eq_true s.Empty with h | h
    · exact absurd ((s.shaped_empty_iff hshape).mp h) (by omega)
    · exact h
  intro i hi j hj
  unfold DeltaEddingtonSolve
  rw [hstate]
  simp only [hemp, Bool.false_eq_true, if_false, if_neg (not_le.mpr hmu)]
  rw [s.numberOfLayers_of_shaped hshape, s.numberOfWavelengths_of_shaped hshape hn]
  rw [idxF_map_map _ hi hj, idxF_map_map _ hi hj, idxF_map_map _ hi hj,
    idxF_map_map _ hi hj, idxF_map_map _ hi hj]
  have hlen : (colOf s.optical_depth j).length = n := by
    unfold colOf
    rw [List.length_map]
    exact hshape.1.1
  have halb : 0 ≤ (match input.surface_albedo with
      | none => (0:ℝ)
      | some a => if j < a.length then a.getD j 0 else 0) := by
    match hsa : input.surface_albedo with
    | none => exact le_refl 0
    | some a =>
      simp only
      by_cases hja : j < a.length
      · rw [if_pos hja]
        have hmem : a.getD j 0 ∈ a := by
          rw [List.getD_eq_getElem _ _ hja]
          exact List.getElem_mem hja
        exact (halbedo a hsa _ hmem).1
      · rw [if_neg hja]
  have hfl : 0 ≤ (match input.extraterrestrial_flux with
      | none => (1:ℝ)
      | some fl => if j < fl.length then fl.getD j 0 else 1) := by
    match hsf : input.extraterrestrial_flux with
    | none => norm_num
    | some fl =>
      simp only
      by_cases hjf : j < fl.length
      · rw [if_pos hjf]
        have hmem : fl.getD j 0 ∈ fl := by
          rw [List.getD_eq_getElem _ _ hjf]
          exact List.getElem_mem hjf
        exact hflux fl hsf _ hmem
      · rw [if_neg hjf]
        norm_num
  have hcol : ColumnOK (colOf s.optical_depth j) (colOf s.single_scattering_albedo j)
      (colOf s.asymmetry_factor j) := by
    refine ⟨?_, ?_, ?_⟩ <;> intro k hk <;> rw [hlen] at hk
    · rw [colOf_getD _ _ (by rw [hshape.1.1]; exact hk)]
      exact htau k hk j hj
    · rw [colOf_getD _ _ (by rw [hshape.2.1.1]; exact hk)]
      exact homega k hk j hj
    · rw [colOf_getD _ _ (by rw [hshape.2.2.1]; exact hk)]
      exact hasym k hk j hj
  have H := solveTwoStream_NN (colOf s.optical_depth j)
    (colOf s.single_scattering_albedo j) (colOf s.asymmetry_factor j)
    (match input.geometry with
      | none => List.replicate n (1 / input.mu0)
      | some e => e)
    input.mu0 _ _ hmu halb hfl hcol i (by rw [hlen]; omega)
  exact ⟨H.1, H.2.2.1, H.2.1, H.2.2.2.1, H.2.2.2.2⟩

theorem gScaled_g_one : gScaled [1] [1/2] [1] 0 = none := by
  unfold gScaled DeltaScale
  norm_num [List.getD, fpDiv]

theorem diffuseDownFinal_g_one :
    diffuseDownFinal [1] [1/2] [1] [1] 1 1 0 = none := by
  unfold diffuseDownFinal
  rw [if_pos (by norm_num)]
  rw [gScaled_g_one]
  simp

/-- C2 counterexample: a single layer with `τ = 1`, `ω = 1/2`, `g = 1` at
overhead sun (`χ = 0`, `μ₀ = 1`) puts NaN into `diffuse_down[0][0]`: the
delta scaling computes `g̃ = (g - g²)/(1 - g²) = 0/0 = NaN`, which the
single-scattering pass multiplies into the diffuse arrays (IEEE
`0 · NaN = NaN`). -/
theorem deltaEddington_nan_counterexample :
    idxF (DeltaEddingtonSolve (SolverInput.mk (some ⟨[[1]], [[1/2]], [[1]]⟩)
      none none none 0)).diffuse_down 0 0 = none := by
  have hmu : (SolverInput.mk (some ⟨[[1]], [[1/2]], [[1]]⟩) none none none 0).mu0 = 1 := by
    unfold SolverInput.mu0
    rw [show (SolverInput.mk (some ⟨[[1]], [[1/2]], [[1]]⟩) none none none
      0).solar_zenith_angle * kDegreesToRadians = 0 by simp, Real.cos_zero]
  unfold DeltaEddingtonSolve
  rw [hmu]
  simp only [RadiatorState.Empty, RadiatorState.NumberOfLayers,
    RadiatorState.NumberOfWavelengths]
  norm_num
  rw [idxF_map_map _ (show 0 < 2 by norm_num) (show 0 < 1 by norm_num)]
  simp only [colOf, List.map_cons, List.map_nil, SolveTwoStream]
  rw [show ([(1:ℝ)].getD 0 0) = 1 from rfl, show ([(1:ℝ)/2].getD 0 0) = 1/2 from rfl]
  rw [show ([(1:ℝ)].length + 1) = 2 from rfl]
  have h0 : (List.map (fun l => diffuseDownFinal [1] [1/2] [1] [1] 1 1 l)
      (List.range 2))[0]? = some (diffuseDownFinal [1] [1/2] [1] [1] 1 1 0) := by
    rw [List.getElem?_eq_getElem (by simp), List.getElem_map, List.getElem_range]
  rw [h0, Option.getD_some]
  exact diffuseDownFinal_g_one

theorem mu0_pos_at_0 :
    0 < (SolverInput.mk (some ⟨[[1]], [[1/2]], [[0]]⟩) none none none 0).mu0 := by
  unfold SolverInput.mu0
  rw [show (SolverInput.mk (some ⟨[[1]], [[1/2]], [[0]]⟩) none none none
    0).solar_zenith_angle * kDegreesToRadians = 0 by simp, Real.cos_zero]
  norm_num

/-- Witness for the amended C2: a 1-layer, 1-wavelength state with
`(τ, ω, g) = (1, 1/2, 0)` at overhead sun gives finite nonnegative values
in all five arrays at the surface level. -/
theorem deltaEddington_no_nan_nonneg_witness :
    fpNN (idxF (DeltaEddingtonSolve (SolverInput.mk (some ⟨[[1]], [[1/2]], [[0]]⟩)
      none none none 0)).direct_irradiance 0 0) ∧
    fpNN (idxF (DeltaEddingtonSolve (SolverInput.mk (some ⟨[[1]], [[1/2]], [[0]]⟩)
      none none none 0)).diffuse_up 0 0) ∧
    fpNN (idxF (DeltaEddingtonSolve (SolverInput.mk (some ⟨[[1]], [[1/2]], [[0]]⟩)
      none none none 0)).diffuse_down 0 0) ∧
    fpNN (idxF (DeltaEddingtonSolve (SolverInput.mk (some ⟨[[1]], [[1/2]], [[0]]⟩)
      none none none 0)).actinic_flux_direct 0 0) ∧
    fpNN (idxF (DeltaEddingtonSolve (SolverInput.mk (some ⟨[[1]], [[1/2]], [[0]]⟩)
      none none none 0)).actinic_flux_diffuse 0 0) :=
  deltaEddington_no_nan_nonneg
    (SolverInput.mk (some ⟨[[1]], [[1/2]], [[0]]⟩) none none none 0)
    ⟨[[1]], [[1/2]], [[0]]⟩ 1 1 rfl
    (by refine ⟨⟨rfl, ?_⟩, ⟨rfl, ?_⟩, ⟨rfl, ?_⟩⟩ <;> simp)
    (by norm_num) mu0_pos_at_0
    (by intro a ha; simp at ha)
    (by intro fl hfl; simp at hfl)
    (by
      intro i hi j hj
      have h : i = 0 ∧ j = 0 := by omega
      rw [h.1, h.2]
      norm_num [idx2, List.getD])
    (by
      intro i hi j hj
      have h : i = 0 ∧ j = 0 := by omega
      rw [h.1, h.2]
      norm_num [idx2, List.getD])
    (by
      intro i hi j hj
      have h : i = 0 ∧ j = 0 := by omega
      rw [h.1, h.2]
      norm_num [idx2, List.getD])
    0 (by norm_num) 0 (by norm_num)

/-! ### SphericalGeometry
(`src/include/tuvx/spherical_geometry/spherical_geometry.hpp`) -/

/-- `SphericalGeometry`: Earth radius and per-level radii
(`earth_radius + edge` for each altitude edge, as the constructor builds). -/
structure SphericalGeometry where
  earth_radius : ℝ
  radii : List ℝ

/-- The `SphericalGeometry` constructor from an altitude grid. -/
noncomputable def SphericalGeometry.ofGrid (altitude_grid : Grid)
    (earth_radius : ℝ) : SphericalGeometry :=
  ⟨earth_radius, altitude_grid.edges.map fun e => earth_radius + e⟩

/-- `SphericalGeometry::SlantPathResult`. -/
structure SlantPathResult where
  enhancement_factor : List ℝ
  air_mass : List ℝ
  sunlit : List Bool
  zenith_angle : ℝ
  screening_height : ℝ

/-- `SphericalGeometry::CalculateEnhancementFactor`: first-order spherical
correction over `|cos χ|` away from the terminator, Chapman-style geometric
path (capped at 40) near it, grazing-angle construction below the
horizon. -/
noncomputable def CalculateEnhancementFactor (earth_radius radius sza_rad : ℝ) : ℝ :=
  let cos_sza := Real.cos sza_rad
  let sin_sza := Real.sin sza_rad
  if 0.2 < |cos_sza| then
    let x := (radius - earth_radius) / earth_radius
    (1 + x * sin_sza * sin_sza) / |cos_sza|
  else
    let y := radius / earth_radius
    if 0 < cos_sza then
      min (Real.sqrt (1 + (y * y - 1) / (cos_sza * cos_sza))) 40
    else
      let grazing_angle := Real.arccos (earth_radius / radius)
      let effective_sza := sza_rad - grazing_angle
      if 0 < effective_sza ∧ effective_sza < kPi / 2 then 1 / Real.cos effective_sza
      else 0

/-- The plane-parallel air-mass accumulation of `Calculate` (lines 97-101):
`air_mass[n-1] = secχ` and each lower layer adds another `secχ`;
`planeAirMassAux sec k` is the value `k` layers below the top layer. -/
noncomputable def planeAirMassAux (sec_sza : ℝ) : ℕ → ℝ
  | 0 => sec_sza
  | k + 1 => planeAirMassAux sec_sza k + sec_sza

/-- The spherical air-mass accumulation of `Calculate` (lines 145-155):
starting at 0 above the top layer, each sunlit layer adds
`enhancement · Δr`; `sphericalAirMassAux contrib n k` is the cumulative
value after processing the top `k` layers (layers `n-1` down to `n-k`). -/
noncomputable def sphericalAirMassAux (contrib : ℕ → ℝ) (n : ℕ) : ℕ → ℝ
  | 0 => 0
  | k + 1 => sphericalAirMassAux contrib n k + contrib (n - 1 - k)

/-- `SphericalGeometry::Calculate`. -/
noncomputable def SphericalGeometry.Calculate (sg : SphericalGeometry)
    (solar_zenith_angle : ℝ) : SlantPathResult :=
  let n_layers := sg.radii.length - 1
  let sza_rad := solar_zenith_angle * kDegreesToRadians
  let cos_sza := Real.cos sza_rad
  if solar_zenith_angle < 85 then
    let sec_sza := 1 / cos_sza
    { enhancement_factor := List.replicate n_layers sec_sza
      air_mass := (List.range n_layers).map fun i =>
        planeAirMassAux sec_sza (n_layers - 1 - i)
      sunlit := List.replicate n_layers true
      zenith_angle := solar_zenith_angle
      screening_height := 0 }
  else
    let screening_height :=
      if 90 < solar_zenith_angle then
        min (sg.earth_radius * (1 / |cos_sza| - 1)) (sg.radii.getLastD 0 - sg.earth_radius)
      else 0
    let shadowed := fun i =>
      90 < solar_zenith_angle ∧ sg.radii.getD i 0 - sg.earth_radius < screening_height
    let enhAt := fun i =>
      if shadowed i then 0
      else CalculateEnhancementFactor sg.earth_radius
        (0.5 * (sg.radii.getD i 0 + sg.radii.getD (i + 1) 0)) sza_rad
    let contrib := fun i =>
      if shadowed i then 0 else enhAt i * (sg.radii.getD (i + 1) 0 - sg.radii.getD i 0)
    { enhancement_factor := (List.range n_layers).map enhAt
      air_mass := (List.range n_layers).map fun i =>
        sphericalAirMassAux contrib n_layers (n_layers - i)
      sunlit := (List.range n_layers).map fun i => if shadowed i then false else true
      zenith_angle := solar_zenith_angle
      screening_height := screening_height }

theorem planeAirMassAux_eq (sec : ℝ) : ∀ k, planeAirMassAux sec k = (k + 1 : ℕ) * sec := by
  intro k
  induction k with
  | zero => simp [planeAirMassAux]
  | succ k ih =>
    rw [planeAirMassAux, ih]
    push_cast
    ring

theorem sphericalAirMassAux_eq (contrib : ℕ → ℝ) (n : ℕ) :
    ∀ k, k ≤ n →
      sphericalAirMassAux contrib n k = ∑ j ∈ Finset.Ico (n - k) n, contrib j := by
  intro k
  induction k with
  | zero =>
    intro _
    simp [sphericalAirMassAux]
  | succ k ih =>
    intro hk
    rw [sphericalAirMassAux, ih (by omega)]
    rw [Finset.sum_eq_sum_Ico_succ_bot (show n - (k + 1) < n by omega)]
    rw [show n - (k + 1) + 1 = n - k by omega, show n - 1 - k = n - (k + 1) by omega]
    ring

theorem getD_replicate {α : Type} (a d : α) {n i : ℕ} (hi : i < n) :
    (List.replicate n a).getD i d = a := by
  rw [List.getD_eq_getElem _ _ (by simpa using hi), List.getElem_replicate]

theorem cos_pos_of_sza_lt_85 (chi : ℝ) (h0 : 0 ≤ chi) (h85 : chi < 85) :
    0 < Real.cos (chi * kDegreesToRadians) := by
  have hk : kDegreesToRadians = kPi / 180 := rfl
  have hkPi : kPi = 3.14159265358979323846 := rfl
  have hpi := Real.pi_gt_d6
  apply Real.cos_pos_of_mem_Ioo
  constructor
  · have : 0 ≤ chi * kDegreesToRadians := by
      apply mul_nonneg h0
      rw [hk, hkPi]
      norm_num
    nlinarith [Real.pi_pos]
  · rw [hk, hkPi]
    nlinarith

/-- C4 amended: for `0 ≤ χ < 85` every layer has enhancement factor
`sec χ`, every layer is sunlit, and `air_mass[i]` is the LAYER COUNT above
level `i` times `sec χ` (not weighted by layer thickness), which decreases
strictly from the surface layer to the TOA layer; for `χ ≥ 85` the air mass
is the claimed cumulative enhanced path
`Σ_{sunlit k ≥ i} e_k · (radii[k+1] - radii[k])`. -/
theorem sphericalGeometry_calculate_spec (sg : SphericalGeometry) (chi : ℝ) (n : ℕ)
    (hlen : sg.radii.length = n + 1) (hn : 0 < n) :
    (0 ≤ chi → chi < 85 →
      (∀ i < n, (sg.Calculate chi).enhancement_factor.getD i 0
        = 1 / Real.cos (chi * kDegreesToRadians)) ∧
      (∀ i < n, (sg.Calculate chi).sunlit.getD i true = true) ∧
      (∀ i < n, (sg.Calculate chi).air_mass.getD i 0
        = (n - i : ℕ) * (1 / Real.cos (chi * kDegreesToRadians))) ∧
      (∀ i, i + 1 < n →
        (sg.Calculate chi).air_mass.getD (i + 1) 0
          < (sg.Calculate chi).air_mass.getD i 0)) ∧
    (85 ≤ chi →
      ∀ i < n, (sg.Calculate chi).air_mass.getD i 0
        = ∑ k ∈ Finset.Ico i n,
            (if (sg.Calculate chi).sunlit.getD k true = true then
              (sg.Calculate chi).enhancement_factor.getD k 0 *
                (sg.radii.getD (k + 1) 0 - sg.radii.getD k 0)
             else 0)) := by
  have hnl : sg.radii.length - 1 = n := by omega
  constructor
  · intro h0 h85
    have hcos := cos_pos_of_sza_lt_85 chi h0 h85
    have hsec : 0 < 1 / Real.cos (chi * kDegreesToRadians) := by positivity
    have hcalc : sg.Calculate chi = ⟨List.replicate n (1 / Real.cos (chi * kDegreesToRadians)),
        (List.range n).map fun i =>
          planeAirMassAux (1 / Real.cos (chi * kDegreesToRadians)) (n - 1 - i),
        List.replicate n true, chi, 0⟩ := by
      unfold SphericalGeometry.Calculate
      rw [if_pos h85, hnl]
    have hair : ∀ i < n, (sg.Calculate chi).air_mass.getD i 0
        = (n - i : ℕ) * (1 / Real.cos (chi * kDegreesToRadians)) := by
      intro i hi
      rw [hcalc]
      simp only
      rw [list_range_map_getD n _ hi, planeAirMassAux_eq, show n - 1 - i + 1 = n - i by omega]
    refine ⟨?_, ?_, hair, ?_⟩
    · intro i hi
      rw [hcalc]
      simp only
      rw [getD_replicate _ _ hi]
    · intro i hi
      rw [hcalc]
      simp only
      rw [getD_replicate _ _ hi]
    · intro i hi
      rw [hair (i + 1) (by omega), hair i (by omega)]
      apply mul_lt_mul_of_pos_right _ hsec
      exact_mod_cast show n - (i + 1) < n - i by omega
  · intro h85 i hi
    have hbranch : ¬ chi < 85 := not_lt.mpr h85
    unfold SphericalGeometry.Calculate
    rw [if_neg hbranch, hnl]
    simp only
    rw [list_range_map_getD n _ hi,
      sphericalAirMassAux_eq _ n (n - i) (by omega), show n - (n - i) = i by omega]
    apply Finset.sum_congr rfl
    intro k hk
    simp only [Finset.mem_Ico] at hk
    rw [list_range_map_getD_poly true n _ hk.2, list_range_map_getD n _ hk.2]
    by_cases hsh : 90 < chi ∧ sg.radii.getD k 0 - sg.earth_radius <
        (if 90 < chi then
          min (sg.earth_radius * (1 / |Real.cos (chi * kDegreesToRadians)| - 1))
            (sg.radii.getLastD 0 - sg.earth_radius)
         else 0)
    · simp only [if_pos hsh]
      simp
    · simp only [if_neg hsh]
      simp

/-- C4 counterexample: one layer of thickness 2 km at χ = 0.  The code's
plane-parallel air mass is `sec χ = 1`, but the claimed total enhanced path
`Σ e_k · (radii[k+1] - radii[k])` is `1 · 2 = 2`. -/
theorem sphericalGeometry_airMass_counterexample :
    (SphericalGeometry.Calculate (SphericalGeometry.ofGrid ⟨1, [0, 2]⟩ 6371) 0).air_mass.getD
        0 0
      ≠ ∑ k ∈ Finset.Ico 0 1,
          (if (SphericalGeometry.Calculate (SphericalGeometry.ofGrid ⟨1, [0, 2]⟩
              6371) 0).sunlit.getD k true = true then
            (SphericalGeometry.Calculate (SphericalGeometry.ofGrid ⟨1, [0, 2]⟩
                6371) 0).enhancement_factor.getD k 0 *
              ((SphericalGeometry.ofGrid ⟨1, [0, 2]⟩ 6371).radii.getD (k + 1) 0 -
                (SphericalGeometry.ofGrid ⟨1, [0, 2]⟩ 6371).radii.getD k 0)
           else 0) := by
  have hradii : (SphericalGeometry.ofGrid ⟨1, [0, 2]⟩ 6371).radii = [6371, 6373] := by
    unfold SphericalGeometry.ofGrid
    norm_num
  have hcos : Real.cos ((0:ℝ) * kDegreesToRadians) = 1 := by
    rw [zero_mul, Real.cos_zero]
  unfold SphericalGeometry.Calculate
  rw [hradii, if_pos (by norm_num : (0:ℝ) < 85), hcos]
  rw [show ([(6371:ℝ), 6373].length - 1) = 1 from rfl]
  simp only
  rw [show Finset.Ico 0 1 = {0} from rfl, Finset.sum_singleton]
  rw [list_range_map_getD 1 _ (by norm_num), getD_replicate _ _ (by norm_num : 0 < 1),
    getD_replicate _ _ (by norm_num : 0 < 1)]
  norm_num [planeAirMassAux, List.getD]

/-- Witness for the amended C4: the concrete 1-layer grid of the
counterexample at χ = 0, where the air mass at the surface layer equals
`1 · sec χ`. -/
theorem sphericalGeometry_calculate_spec_witness :
    (SphericalGeometry.Calculate (SphericalGeometry.ofGrid ⟨1, [0, 2]⟩ 6371) 0).air_mass.getD
        0 0
      = ((1 - 0 : ℕ) : ℝ) * (1 / Real.cos (0 * kDegreesToRadians)) :=
  ((sphericalGeometry_calculate_spec (SphericalGeometry.ofGrid ⟨1, [0, 2]⟩ 6371) 0 1
      (by unfold SphericalGeometry.ofGrid; norm_num) (by norm_num)).1
    (by norm_num) (by norm_num)).2.2.1 0 (by norm_num)

end Tuvx
